import Mathlib

/-!
The program jz_gpio: pin state decoding, pin designators, drive strength, SoC
identification and the command dispatch of `main`

A shallow embedding of `src/jz_gpio.c`.

* Text written by `printf` is a `String`.
* A C string is the list of the byte values of its characters, without the
  terminating NUL; `cstr` gives that list for a string of ASCII text.
* Mapped memory is a function from byte address to the 32-bit word stored there.
* Values of type `uint32_t` and `uint8_t` are natural numbers, reduced modulo
  `2 ^ 32` and `2 ^ 8` where the C code can exceed the width.
* Out-parameters (`void **port`, `uint8_t *offset`) are passed in and returned.
* A run of `main` carries the register contents, the list of stores issued and the
  text printed; the effect of a store on the alias registers follows the hardware
  model of the specification (`hw_store`).
-/

namespace JzGpio

/-! ## Constants and bit helpers -/

/-- Byte offset of the drive register of pins 0-15 inside a port block (`PxDRVL_OFFSET`). -/
def PxDRVL_OFFSET : Nat := 0x130

/-- Byte offset of the drive register of pins 16-31 inside a port block (`PxDRVH_OFFSET`). -/
def PxDRVH_OFFSET : Nat := 0x140

/-- Integer value of a C `bool`: 1 for true, 0 for false. -/
def b2n (b : Bool) : Nat := if b then 1 else 0

/-- Text produced by the conversions `%u` and `%d` for a non-negative value. -/
def fmt_u (n : Nat) : String := toString n

/-! ## The pin state decoder of `show_gpios` -/

/-- Text printed by `show_gpios` for one pin between the pin label and the drive
strength (source lines 124-150), as a function of the five bits read for that pin. -/
def show_gpios_pin (b_int b_msk b_pat1 b_pat0 b_inl : Bool) : String :=
  if b_int then
    (if b_pat1 then
      (if b_pat0 then "INTERRUPT RISING_EDGE " else "INTERRUPT FALLING_EDGE ")
    else
      (if b_pat0 then "INTERRUPT HIGH_LEVEL " else "INTERRUPT LOW_LEVEL "))
    ++ (if b_msk then "DISABLED " else "ENABLED ")
  else
    if b_msk then
      (if b_pat1 then "GPIO INPUT " else "GPIO OUTPUT ")
        ++ fmt_u (b2n (if b_pat0 then b_inl else b_pat0)) ++ " "
    else
      "FUNCTION " ++ fmt_u ((b2n b_pat1 <<< 1) ||| b2n b_pat0) ++ " "

/-! ## `str2portoff` -/

/-- Byte values of the characters of a string of ASCII text: the contents of the C
string, without its terminating NUL. -/
def cstr (s : String) : List Nat := s.toList.map Char.toNat

/-- The C library `toupper` in the default "C" locale, on a byte value. -/
def toupper (c : Nat) : Nat := if 97 ≤ c ∧ c ≤ 122 then c - 32 else c

/-- The C library `isspace` in the "C" locale: space, and `\t \n \v \f \r`. -/
def isspace (c : Nat) : Bool := c = 32 ∨ (9 ≤ c ∧ c ≤ 13)

/-- The C library `isdigit`. -/
def isdigit (c : Nat) : Bool := 48 ≤ c ∧ c ≤ 57

/-- Largest value of `long` on the 32-bit SoCs the tool is built for. -/
def LONG_MAX : Int := 2147483647

/-- Smallest value of `long` on the 32-bit SoCs the tool is built for. -/
def LONG_MIN : Int := -2147483648

/-- The digit loop of `strtol` in base 10: the value of the longest leading run of
decimal digits, continuing from `acc`; it stops at the first other character. -/
def strtol_digits : Nat → List Nat → Nat
  | acc, [] => acc
  | acc, c :: cs =>
    if isdigit c then strtol_digits (acc * 10 + (c - 48)) cs else acc

/-- The C library call `strtol(s, NULL, 10)`: leading white space is skipped, an
optional sign (`-` is 45, `+` is 43) is read, then decimal digits up to the first
other character; no digits give 0, and a value out of range of `long` is clamped. -/
def strtol (s : List Nat) : Int :=
  match s.dropWhile isspace with
  | [] => 0
  | c :: cs =>
    if c = 45 then max LONG_MIN (-(strtol_digits 0 cs : Int))
    else if c = 43 then min LONG_MAX (strtol_digits 0 cs : Int)
    else min LONG_MAX (strtol_digits 0 (c :: cs) : Int)

/-- The two out-parameters of `str2portoff`: `*port` and `*offset`. -/
structure PortOff where
  port : Nat
  offset : Nat
  deriving DecidableEq, Repr

/-- The function `str2portoff` (source lines 158-177). `str` holds the byte values of
the characters of the C string, `phys_mem` is the address the GPIO window is mapped
at and `GPIO_PORT_WIDTH` the global port stride; `out` holds the two out-parameters
before the call, and the result is the returned flag together with the
out-parameters after the call. `A` is 65 and `G` is 71.

`str[1]` is a byte and `toupper` maps bytes to bytes, so storing it in the
`uint8_t portchar` keeps its value; the `long` returned by `strtol` is reduced to
8 bits by the store into `uint8_t off`. The address is computed without wrap-around:
the port index is at most 6 and `GPIO_PORT_WIDTH` is 0x100 or 0x1000 in every run. -/
def str2portoff (phys_mem GPIO_PORT_WIDTH : Nat) (str : List Nat) (out : PortOff) :
    Bool × PortOff :=
  if str.length ≠ 4 then (false, out)
  else
    let portchar := toupper (str.getD 1 0)
    if portchar < 65 ∨ portchar > 71 then (false, out)
    else
      let off := (strtol (str.drop 2) % 256).toNat
      if off > 31 then (false, out)
      else
        (true, { port := phys_mem + (portchar - 65) * GPIO_PORT_WIDTH, offset := off })

/-- A port letter `A`..`G` (65..71) or `a`..`g` (97..103). -/
def is_port_letter (c : Nat) : Bool := (65 ≤ c ∧ c ≤ 71) ∨ (97 ≤ c ∧ c ≤ 103)

/-- Port index named by a port letter of either case: `letter - A` after case folding. -/
def port_index (c : Nat) : Nat := if 97 ≤ c then c - 97 else c - 65

/-- Value of two characters read as a two-digit decimal number. -/
def two_digit_value (c2 c3 : Nat) : Nat := (c2 - 48) * 10 + (c3 - 48)

/-- The designator syntax of the specification: exactly four characters, `P` (80), a
port letter `A`..`G` of either case, and two decimal digits with value 00..31. -/
def designator_form (str : List Nat) : Bool :=
  match str with
  | [c0, c1, c2, c3] =>
    decide (c0 = 80) && is_port_letter c1 && isdigit c2 && isdigit c3 &&
      decide (two_digit_value c2 c3 ≤ 31)
  | _ => false

/-! ## Drive strength -/

/-- Mapped memory: the 32-bit word stored at each byte address. -/
abbrev Mem := Nat → Nat

/-- Store of a 32-bit word. -/
def Mem.write (mem : Mem) (addr val : Nat) : Mem :=
  fun a => if a = addr then val % 2 ^ 32 else mem a

/-- The C expression `x << n` as a 32-bit value, for a count below 32: the bits shifted
beyond bit 31 are dropped. Where the program reaches a count of 32 or more, the
shift is `shl32_wrap`. -/
def shl32 (x n : Nat) : Nat := (x <<< n) % 2 ^ 32

/-- The C expression `x << n` on a 32-bit `int` where the count can reach 32 or more,
which C leaves undefined: the shift instruction of the compiled code (`sllv` on the
MIPS32 SoCs the tool is built for, as `shl` on x86) uses the low five bits of the
count, so the value is `x << (n mod 32)`. -/
def shl32_wrap (x n : Nat) : Nat := shl32 x (n % 32)

/-- The C expression `~x` on a `uint32_t`. -/
def not32 (x : Nat) : Nat := (2 ^ 32 - 1) ^^^ x

/-- The function `get_drive_strength` (source lines 262-278); `offset` is a `uint8_t`,
at most 31 in every call. The mask is computed from `offset` before the adjustment
for the high pins, as in the source, so for pins 16..31 its shift count is 32..62
(`shl32_wrap`); the other shift uses the adjusted offset, with a count of at most 30. -/
def get_drive_strength (mem : Mem) (port offset : Nat) : Nat :=
  let mask := shl32_wrap 3 (offset * 2)
  let (drive_reg, offset) :=
    if offset < 16 then (port + PxDRVL_OFFSET, offset)
    else (port + PxDRVH_OFFSET, offset - 16)
  ((mem drive_reg &&& mask) >>> (offset * 2)) % 256

/-- The function `set_drive_strength` (source lines 280-300): the text printed and the
memory after the call. As in `get_drive_strength`, the mask is computed from the
unadjusted offset (`shl32_wrap`) and the code is shifted by the adjusted one. -/
def set_drive_strength (mem : Mem) (port offset strength : Nat) : String × Mem :=
  if strength > 3 then ("Invalid drive strength. Must be 0-3.\n", mem)
  else
    let mask := shl32_wrap 3 (offset * 2)
    let (drive_reg, offset) :=
      if offset < 16 then (port + PxDRVL_OFFSET, offset)
      else (port + PxDRVH_OFFSET, offset - 16)
    let mem1 := mem.write drive_reg (mem drive_reg &&& not32 mask)
    let mem2 := mem1.write drive_reg (mem1 drive_reg ||| shl32 strength (offset * 2))
    ("", mem2)

/-- The 2-bit field of pin `k` (0-15) of a drive register: bits `2k+1 : 2k`. -/
def drive_field (reg k : Nat) : Nat := (reg >>> (k * 2)) &&& 3

/-- The drive register that holds the field of pin `offset` (0-31) of the port at
`port`: the low register for pins 0-15, the high register for pins 16-31. -/
def drive_reg_of (port offset : Nat) : Nat :=
  if offset < 16 then port + PxDRVL_OFFSET else port + PxDRVH_OFFSET

/-- The other drive register of the same port. -/
def other_drive_reg_of (port offset : Nat) : Nat :=
  if offset < 16 then port + PxDRVH_OFFSET else port + PxDRVL_OFFSET

/-! ## SoC identification and port stride -/

/-- The SoC type derived by `set_port_width` from the identifier returned by
`read_soc_id` (source lines 221-228); `soc_id` is a `uint32_t`. -/
def set_port_width_soc_type (soc_id : Nat) : Nat :=
  if soc_id >>> 28 ≠ 1 then (soc_id >>> 12) &&& 0xFF
  else (shl32 soc_id 4) >>> 0x10

/-- The `switch` of `set_port_width` (source lines 231-246): the value assigned to
`GPIO_PORT_WIDTH` for a SoC type. -/
def set_port_width_switch (soc_type : Nat) : Nat :=
  if soc_type = 5 then 0x100
  else if soc_type = 0x2000 then 0x100
  else if soc_type = 0x21 ∨ soc_type = 0x30 ∨ soc_type = 0x31 then 0x1000
  else 0x100

/-- The function `set_port_width` (source lines 216-250): the value of the global
`GPIO_PORT_WIDTH` after the call, given the identifier read by `read_soc_id`. -/
def set_port_width (soc_id : Nat) : Nat :=
  set_port_width_switch (set_port_width_soc_type soc_id)

/-- The function `drive_strength_to_ma` (source lines 252-260). -/
def drive_strength_to_ma (strength : Nat) : Nat :=
  match strength with
  | 0 => 2
  | 1 => 4
  | 2 => 8
  | 3 => 12
  | _ => 0

/-! ## Register block layout -/

/-- Byte offset of the field `INL` of `XHAL_GPIO_HandleTypeDef` (source lines 71-99). -/
def INL_OFF : Nat := 0x00

/-- Byte offset of the field `INT`, after `INL` and three reserved words. -/
def INT_OFF : Nat := 0x10

/-- Byte offset of the field `INTS`. -/
def INTS_OFF : Nat := 0x14

/-- Byte offset of the field `INTC`. -/
def INTC_OFF : Nat := 0x18

/-- Byte offset of the field `MSK`. -/
def MSK_OFF : Nat := 0x20

/-- Byte offset of the field `MSKS`. -/
def MSKS_OFF : Nat := 0x24

/-- Byte offset of the field `MSKC`. -/
def MSKC_OFF : Nat := 0x28

/-- Byte offset of the field `PAT1`. -/
def PAT1_OFF : Nat := 0x30

/-- Byte offset of the field `PAT1S`. -/
def PAT1S_OFF : Nat := 0x34

/-- Byte offset of the field `PAT1C`. -/
def PAT1C_OFF : Nat := 0x38

/-- Byte offset of the field `PAT0`. -/
def PAT0_OFF : Nat := 0x40

/-- Byte offset of the field `PAT0S`. -/
def PAT0S_OFF : Nat := 0x44

/-- Byte offset of the field `PAT0C`. -/
def PAT0C_OFF : Nat := 0x48

/-- Length in bytes of the window that `main` maps at `GPIO_BASE` (source line 317). -/
def MAP_LENGTH : Nat := 0x10000

/-- The macro `BIT_GET(x, n)`: `(((x) >> (n)) & 1)`. -/
def BIT_GET (x n : Nat) : Nat := (x >>> n) &&& 1

/-! ## `show_gpios` -/

/-- Text produced by the conversion `%c` for a byte value. -/
def fmt_c (c : Nat) : String := String.singleton (Char.ofNat c)

/-- Text produced by the conversion `%02u` for a value below 100. -/
def fmt_02u (n : Nat) : String := if n < 10 then "0" ++ toString n else toString n

/-- Address of the register block of the port with index `i`:
`phys_mem + i * GPIO_PORT_WIDTH` (source line 109). -/
def show_gpios_port_addr (phys_mem GPIO_PORT_WIDTH i : Nat) : Nat :=
  phys_mem + i * GPIO_PORT_WIDTH

/-- The four-character pin label at the start of the text printed by
`printf("P%c%02u: ", 'A' + i, j)` (source line 115); `A` is 65. -/
def show_gpios_label (i j : Nat) : String := "P" ++ fmt_c (65 + i) ++ fmt_02u j

/-- The text of the pin state decoder for pin `j` of the port block at `port`, from
the five bits that `show_gpios` reads for it (source lines 118-150). -/
def show_gpios_state (mem : Mem) (port j : Nat) : String :=
  let b_int := decide (BIT_GET (mem (port + INT_OFF)) j ≠ 0)
  let b_msk := decide (BIT_GET (mem (port + MSK_OFF)) j ≠ 0)
  let b_pat1 := decide (BIT_GET (mem (port + PAT1_OFF)) j ≠ 0)
  let b_pat0 := decide (BIT_GET (mem (port + PAT0_OFF)) j ≠ 0)
  let b_inl := decide (BIT_GET (mem (port + INL_OFF)) j ≠ 0)
  show_gpios_pin b_int b_msk b_pat1 b_pat0 b_inl

/-- Text printed by one iteration of the inner loop of `show_gpios` (source lines
115-151) for pin `j` of the port with index `i` whose register block is at `port`. -/
def show_gpios_line (mem : Mem) (port i j : Nat) : String :=
  let drive_strength := get_drive_strength mem port j
  show_gpios_label i j ++ ": " ++ show_gpios_state mem port j ++
    fmt_u (drive_strength_to_ma drive_strength) ++ "ma\n"

/-- The function `show_gpios` (source lines 107-156): the pieces of text it prints, in
order. For each port index 0, 1, 2: the port header, the rule, the 32 pin lines for
pins 0..31, and an empty line. -/
def show_gpios (phys_mem GPIO_PORT_WIDTH : Nat) (mem : Mem) : List String :=
  (List.range 3).flatMap fun i =>
    let port := show_gpios_port_addr phys_mem GPIO_PORT_WIDTH i
    ["Port " ++ fmt_c (65 + i) ++ "\n", "================\n"] ++
      (List.range 32).map (fun j => show_gpios_line mem port i j) ++ ["\n"]

/-! ## Hardware model of the alias registers -/

/-- Modelled from the spec: the effect on the register contents of a 32-bit store of
the word `word` to the register at byte offset `off` of the port block at `port`. A
store to a set alias (`INTS`, `MSKS`, `PAT1S`, `PAT0S`) sets the bits of `word` in the
value register 4 bytes below it; a store to a clear alias (`INTC`, `MSKC`, `PAT1C`,
`PAT0C`) clears the bits of `word` in the value register 8 bytes below it; what the
alias register itself reads back as does not change. A store to any other register
replaces its content. -/
def hw_store (mem : Mem) (port off word : Nat) : Mem :=
  if off = INTS_OFF ∨ off = MSKS_OFF ∨ off = PAT1S_OFF ∨ off = PAT0S_OFF then
    mem.write (port + off - 4) (mem (port + off - 4) ||| word)
  else if off = INTC_OFF ∨ off = MSKC_OFF ∨ off = PAT1C_OFF ∨ off = PAT0C_OFF then
    mem.write (port + off - 8) (mem (port + off - 8) &&& not32 word)
  else mem.write (port + off) word

/-! ## `main` -/

/-- State of a run of `main`: what every register reads back as, the stores issued so
far (address and word, oldest first), and the text written to standard output. -/
structure World where
  mem : Mem
  stores : List (Nat × Nat)
  out : String

/-- A call of `printf` or `puts`: the text is appended to standard output. -/
def World.print (w : World) (s : String) : World := { w with out := w.out ++ s }

/-- Text produced by the conversion `%s` for a C string. -/
def fmt_s (s : List Nat) : String := String.mk (s.map Char.ofNat)

/-- The macro `BIT_SET(x, n)`, `((x) |= (1 << (n)))`, on the register `x` at byte offset
`off` of the port block at `port`: the register is read, the bit is or-ed in, and the
word is stored back to the same register. -/
def BIT_SET (w : World) (port off n : Nat) : World :=
  let word := w.mem (port + off) ||| shl32 1 n
  { w with mem := hw_store w.mem port off word, stores := w.stores ++ [(port + off, word)] }

/-- The two stores of `set_drive_strength` (source lines 298-299), as address and word;
there is none when the strength is rejected. -/
def set_drive_strength_stores (mem : Mem) (port offset strength : Nat) : List (Nat × Nat) :=
  if strength > 3 then []
  else
    let mask := shl32_wrap 3 (offset * 2)
    let (drive_reg, offset) :=
      if offset < 16 then (port + PxDRVL_OFFSET, offset)
      else (port + PxDRVH_OFFSET, offset - 16)
    let word1 := mem drive_reg &&& not32 mask
    let mem1 := mem.write drive_reg word1
    [(drive_reg, word1), (drive_reg, mem1 drive_reg ||| shl32 strength (offset * 2))]

/-- The function `check_val` (source lines 185-192): `none` when `val` is NULL, where
the function prints "error: value not specified" and calls `exit(2)`; otherwise the
value read by `strtol`. -/
def check_val (val : Option (List Nat)) : Option Int := val.map strtol

/-- The command dispatch of `main` (source lines 337-391) for the pin at bit `offset`
of the port block at `port`; `cmd` is `argv[2]` and `val` is `argv[3]`, `none` when
it is NULL. The result is the exit status and the final state, or `none` when the
program never returns (the endless loop of `flip`). A value is stored in a
`uint8_t`, which keeps its low 8 bits. -/
def main_command (port offset : Nat) (cmd : List Nat) (val : Option (List Nat)) (w : World) :
    Option (Nat × World) :=
  if cmd = cstr "inl" ∨ cmd = cstr "read" then
    some (0, w.print (fmt_u (BIT_GET (w.mem (port + INL_OFF)) offset) ++ "\n"))
  else if cmd = cstr "int" then
    match check_val val with
    | none => some (2, w.print "error: value not specified")
    | some x =>
      if (x % 256).toNat ≠ 0 then some (0, BIT_SET w port INTS_OFF offset)
      else some (0, BIT_SET w port INTC_OFF offset)
  else if cmd = cstr "pat0" ∨ cmd = cstr "write" then
    match check_val val with
    | none => some (2, w.print "error: value not specified")
    | some x =>
      if (x % 256).toNat ≠ 0 then some (0, BIT_SET w port PAT0S_OFF offset)
      else some (0, BIT_SET w port PAT0C_OFF offset)
  else if cmd = cstr "flip" then none
  else if cmd = cstr "pat1" then
    match check_val val with
    | none => some (2, w.print "error: value not specified")
    | some x =>
      if (x % 256).toNat ≠ 0 then some (0, BIT_SET w port PAT1S_OFF offset)
      else some (0, BIT_SET w port PAT1C_OFF offset)
  else if cmd = cstr "gpio_input" then
    some (0, BIT_SET (BIT_SET (BIT_SET w port INTC_OFF offset) port MSKS_OFF offset)
      port PAT1S_OFF offset)
  else if cmd = cstr "gpio_output" then
    some (0, BIT_SET (BIT_SET (BIT_SET w port INTC_OFF offset) port MSKS_OFF offset)
      port PAT1C_OFF offset)
  else if cmd = cstr "func" then
    match check_val val with
    | none => some (2, w.print "error: value not specified")
    | some x =>
      let v := (x % 256).toNat
      let w1 := BIT_SET w port INTC_OFF offset
      let w2 := BIT_SET w1 port MSKC_OFF offset
      let w3 := if BIT_GET v 1 ≠ 0 then BIT_SET w2 port PAT1S_OFF offset
        else BIT_SET w2 port PAT1C_OFF offset
      let w4 := if BIT_GET v 0 ≠ 0 then BIT_SET w3 port PAT0S_OFF offset
        else BIT_SET w3 port PAT0C_OFF offset
      some (0, w4)
  else if cmd = cstr "drive" then
    match val with
    | none => some (2, w.print "error: drive strength value not specified\n")
    | some a3 =>
      let drive_strength := (strtol a3 % 256).toNat
      some (0, { mem := (set_drive_strength w.mem port offset drive_strength).2,
                 stores := w.stores ++
                   set_drive_strength_stores w.mem port offset drive_strength,
                 out := w.out ++ (set_drive_strength w.mem port offset drive_strength).1 })
  else some (0, w.print ("error: Bad command `" ++ fmt_s cmd ++ "'\n"))

/-- The usage text of `show_help` (source lines 32-56), as passed to `puts`. -/
def show_help_text : String :=
  "Usage: ingenic-gpio <show|[GPIO_DEF [COMMAND VALUE]]>\n" ++
  "GPIO diagnostic tool for Ingenic Tomahawk Series SoCs.\n" ++
  "\n" ++
  "Commands:\n" ++
  "  inl                        Read input level\n" ++
  "  int                        Set interrupt\n" ++
  "  msk                        Set mask\n" ++
  "  pat0                       Set pattern 0 (data)\n" ++
  "  pat1                       Set pattern 1 (direction)\n" ++
  "  gpio_input                 Shortcut of `int 0', `msk 1', `pat1 1'\n" ++
  "  gpio_output                Shortcut of `int 0', `msk 1', `pat1 0'\n" ++
  "  read                       Shortcut of `inl'\n" ++
  "  write                      Shortcut of `pat0'\n" ++
  "  func                       Shortcut of `int 0', `msk 0', `pat1 <1>', `pat0 <0>'\n" ++
  "  drive                      Set drive strength (0-3 for 2ma, 4ma, 8ma, 12ma)\n" ++
  "\n" ++
  "Examples:\n" ++
  "  ingenic-gpio show\n" ++
  "  ingenic-gpio pc23 gpio_input\n" ++
  "  ingenic-gpio pc23 read\n" ++
  "  ingenic-gpio pa00 gpio_output\n" ++
  "  ingenic-gpio pa00 write 1\n" ++
  "  ingenic-gpio pb27 func 0  # Set PB27 as 24MHz clock output on X1000\n"

/-- The function `main` (source lines 302-399) as a function of the argument vector
`argv` (with `argv[0]`), the identifier read by `read_soc_id`, whether `open` and
`mmap` succeed, the address `phys_mem` of the mapping, and the register contents.
The result is the exit status and the final state, or `none` when the program never
returns. `argv[argc]` is NULL; with a single argument `val = argv[3]` is read one
slot beyond it, and that value is never used, since `argv[2]` is NULL and `main`
returns before the dispatch; it reads as NULL here. `perror` writes to standard
error, which is not recorded. The out-parameters of `str2portoff` start
uninitialised and are read only after a successful call, which sets both. -/
def main (soc_id : Nat) (open_ok mmap_ok : Bool) (phys_mem : Nat) (argv : List (List Nat))
    (mem : Mem) : Option (Nat × World) :=
  let GPIO_PORT_WIDTH := set_port_width soc_id
  let w : World := { mem := mem, stores := [], out := "" }
  if argv.length < 2 then some (1, w.print (show_help_text ++ "\n"))
  else if open_ok = false then some (2, w)
  else if mmap_ok = false then some (2, w)
  else if argv.getD 1 [] = cstr "show" then
    some (0, w.print (String.join (show_gpios phys_mem GPIO_PORT_WIDTH mem)))
  else
    let val := argv.get? 3
    match str2portoff phys_mem GPIO_PORT_WIDTH (argv.getD 1 []) ⟨0, 0⟩ with
    | (true, po) =>
      match argv.get? 2 with
      | none => some (2, w.print "error: no command specified\n")
      | some cmd => main_command po.port po.offset cmd val w
    | (false, _) =>
      some (2, w.print ("error: Bad pin specification `" ++ fmt_s (argv.getD 1 []) ++ "'\n"))

/-! ## Vocabulary for the statements about commands -/

/-- Byte offsets of the eight set and clear alias registers of a port block. -/
def alias_offsets : List Nat :=
  [INTS_OFF, INTC_OFF, MSKS_OFF, MSKC_OFF, PAT1S_OFF, PAT1C_OFF, PAT0S_OFF, PAT0C_OFF]

/-- Byte offsets of the four value registers `INT`, `MSK`, `PAT1`, `PAT0`. -/
def value_offsets : List Nat := [INT_OFF, MSK_OFF, PAT1_OFF, PAT0_OFF]

/-- Each alias register with the value register it acts on and whether it sets
(`true`) or clears (`false`) bits there. -/
def alias_table : List (Nat × Nat × Bool) :=
  [(INTS_OFF, INT_OFF, true), (INTC_OFF, INT_OFF, false),
   (MSKS_OFF, MSK_OFF, true), (MSKC_OFF, MSK_OFF, false),
   (PAT1S_OFF, PAT1_OFF, true), (PAT1C_OFF, PAT1_OFF, false),
   (PAT0S_OFF, PAT0_OFF, true), (PAT0C_OFF, PAT0_OFF, false)]

/-- The eight alias registers of the port block at `port` read back as zero. -/
def aliases_read_zero (mem : Mem) (port : Nat) : Prop :=
  ∀ off, off ∈ alias_offsets → mem (port + off) = 0

/-- Between the states `w` and `w1` the program has stored only to alias registers of
the port block at `port`, each stored word being the single bit of pin `n`, and in
the four value registers the bit of every other pin 0..31 is the same. -/
def pin_only (port n : Nat) (w w1 : World) : Prop :=
  (∃ new, w1.stores = w.stores ++ new ∧
    ∀ s, s ∈ new → s.2 = shl32 1 n ∧ ∃ off, off ∈ alias_offsets ∧ s.1 = port + off) ∧
  (∀ R, R ∈ value_offsets → ∀ k, k ≤ 31 → k ≠ n →
    BIT_GET (w1.mem (port + R)) k = BIT_GET (w.mem (port + R)) k)

/-- The names of the commands that read a value argument. -/
def value_commands : List (List Nat) :=
  [cstr "int", cstr "pat0", cstr "write", cstr "pat1", cstr "func", cstr "drive"]

/-- The names of all the commands that `main` recognises. -/
def known_commands : List (List Nat) :=
  [cstr "inl", cstr "read", cstr "int", cstr "pat0", cstr "write", cstr "flip", cstr "pat1",
   cstr "gpio_input", cstr "gpio_output", cstr "func", cstr "drive"]

/-- The invocations with at least one argument for which exit status 2 is specified
once the memory device is mapped: the first argument is not `show` and either it is
not accepted by `str2portoff`, or no command follows it, or the command is one that
reads a value and no value follows. -/
def exits_with_2 (phys_mem GPIO_PORT_WIDTH : Nat) (argv : List (List Nat)) : Prop :=
  ∃ a1, argv.get? 1 = some a1 ∧ a1 ≠ cstr "show" ∧
    ((str2portoff phys_mem GPIO_PORT_WIDTH a1 ⟨0, 0⟩).1 = false ∨
      argv.get? 2 = none ∨
      ∃ cmd, argv.get? 2 = some cmd ∧ argv.get? 3 = none ∧ cmd ∈ value_commands)

/-! ## Theorems: pin state decoder -/

/-- C1 (evaluation at the failing input): for an output pin (int=0, msk=1, pat1=0)
with pat0=1 and input level 0 the decoder prints value 0, not the PAT0 bit 1. -/
theorem show_gpios_pin_output_shows_inl :
    show_gpios_pin false true false true false = "GPIO OUTPUT 0 " ∧
    show_gpios_pin false true false true false ≠ "GPIO OUTPUT " ++ fmt_u (b2n true) ++ " " := by
  decide

/-- C2: with int=1 the decoder prints INTERRUPT, the trigger chosen by (pat1, pat0),
then ENABLED when msk=0 and DISABLED when msk=1, whatever the input level is. -/
theorem show_gpios_pin_interrupt (b_msk b_pat1 b_pat0 b_inl : Bool) :
    show_gpios_pin true b_msk b_pat1 b_pat0 b_inl =
      "INTERRUPT " ++
      (match b_pat1, b_pat0 with
        | true, true => "RISING_EDGE"
        | true, false => "FALLING_EDGE"
        | false, true => "HIGH_LEVEL"
        | false, false => "LOW_LEVEL") ++
      " " ++ (if b_msk = false then "ENABLED" else "DISABLED") ++ " " ∧
    show_gpios_pin true false true true b_inl = "INTERRUPT RISING_EDGE ENABLED " ∧
    show_gpios_pin true true false false b_inl = "INTERRUPT LOW_LEVEL DISABLED " := by
  revert b_msk b_pat1 b_pat0 b_inl
  decide

/-- C3: with int=0 and msk=0 the decoder prints FUNCTION n with n = 2*pat1 + pat0,
which is at most 3, whatever the input level is; (0,0,1,0) gives FUNCTION 2. -/
theorem show_gpios_pin_function (b_pat1 b_pat0 b_inl : Bool) :
    show_gpios_pin false false b_pat1 b_pat0 b_inl =
      "FUNCTION " ++ fmt_u (2 * b2n b_pat1 + b2n b_pat0) ++ " " ∧
    2 * b2n b_pat1 + b2n b_pat0 ≤ 3 ∧
    show_gpios_pin false false true false b_inl = "FUNCTION 2 " := by
  revert b_pat1 b_pat0 b_inl
  decide

/-- C4: with int=0, msk=1, pat1=1 the decoder prints GPIO INPUT; the value shown is 0
when pat0=0 for either input level, and is the input level when pat0=1. -/
theorem show_gpios_pin_input (b_inl : Bool) :
    show_gpios_pin false true true false b_inl = "GPIO INPUT 0 " ∧
    show_gpios_pin false true true true b_inl = "GPIO INPUT " ++ fmt_u (b2n b_inl) ++ " " := by
  revert b_inl
  decide

/-! ## Theorems: `str2portoff` -/

/-- Two decimal digits are read by `strtol` as their two-digit value. -/
theorem strtol_two_digits (c2 c3 : Nat) (hd2 : isdigit c2 = true) (hd3 : isdigit c3 = true) :
    strtol [c2, c3] = (two_digit_value c2 c3 : Int) := by
  simp only [isdigit, decide_eq_true_eq] at hd2 hd3
  have hsp : isspace c2 = false := by
    simp only [isspace, decide_eq_false_iff_not]; omega
  have h45 : c2 ≠ 45 := by omega
  have h43 : c2 ≠ 43 := by omega
  have hdig : strtol_digits 0 [c2, c3] = two_digit_value c2 c3 := by
    simp [strtol_digits, isdigit, hd2, hd3, two_digit_value]
  have hle : two_digit_value c2 c3 ≤ 99 := by
    simp only [two_digit_value]; omega
  simp only [strtol, List.dropWhile, hsp, h45, h43, if_false, hdig, LONG_MAX]
  omega

/-- The two trailing characters for which the offset stored by `str2portoff` exceeds
31: two decimal digits above 31, or a minus sign followed by a digit other than 0. -/
theorem strtol_two_chars_gt (c2 c3 : Nat) :
    31 < (strtol [c2, c3] % 256).toNat ↔
      (isdigit c2 = true ∧ isdigit c3 = true ∧ 31 < two_digit_value c2 c3) ∨
      (c2 = 45 ∧ isdigit c3 = true ∧ c3 ≠ 48) := by
  by_cases hs2 : isspace c2 = true
  · by_cases hs3 : isspace c3 = true
    · simp only [strtol, List.dropWhile, hs2, hs3]
      simp only [isspace, isdigit, decide_eq_true_eq, Bool.decide_or, Bool.decide_and,
        Bool.or_eq_true, Bool.and_eq_true] at *
      omega
    · simp only [Bool.not_eq_true] at hs3
      simp only [strtol, List.dropWhile, hs2, hs3, strtol_digits]
      simp only [isspace, isdigit, decide_eq_true_eq, decide_eq_false_iff_not, Bool.decide_or,
        Bool.decide_and, Bool.or_eq_true, Bool.and_eq_true, LONG_MAX, LONG_MIN,
        two_digit_value, min_def, max_def] at *
      split_ifs <;> omega
  · simp only [Bool.not_eq_true] at hs2
    simp only [strtol, List.dropWhile, hs2, strtol_digits]
    simp only [isspace, isdigit, decide_eq_true_eq, decide_eq_false_iff_not, Bool.decide_or,
      Bool.decide_and, Bool.or_eq_true, Bool.and_eq_true, LONG_MAX, LONG_MIN,
      two_digit_value, min_def, max_def] at *
    split_ifs <;> omega

/-- Case folding sends exactly the port letters of either case into `A`..`G`. -/
theorem toupper_out_of_range_iff (c : Nat) :
    (toupper c < 65 ∨ toupper c > 71) ↔ is_port_letter c = false := by
  rw [← Bool.not_eq_true]
  simp only [toupper, is_port_letter, Bool.decide_or, Bool.decide_and, Bool.or_eq_true,
    Bool.and_eq_true, decide_eq_true_eq]
  split_ifs <;> omega

/-- Case folding a port letter gives `A` plus its port index. -/
theorem toupper_port_letter (c : Nat) (h : is_port_letter c = true) :
    toupper c = port_index c + 65 ∧ port_index c ≤ 6 := by
  simp only [is_port_letter, Bool.decide_or, Bool.decide_and, Bool.or_eq_true,
    Bool.and_eq_true, decide_eq_true_eq] at h
  simp only [toupper, port_index]
  split_ifs <;> omega

/-- The body of `str2portoff` on a string of exactly four characters. -/
theorem str2portoff_four (phys_mem GPIO_PORT_WIDTH c0 c1 c2 c3 : Nat) (out : PortOff) :
    str2portoff phys_mem GPIO_PORT_WIDTH [c0, c1, c2, c3] out =
      if toupper c1 < 65 ∨ toupper c1 > 71 then (false, out)
      else if (strtol [c2, c3] % 256).toNat > 31 then (false, out)
      else (true, { port := phys_mem + (toupper c1 - 65) * GPIO_PORT_WIDTH,
                    offset := (strtol [c2, c3] % 256).toNat }) := by
  simp only [str2portoff, List.length_cons, List.length_nil, List.getD_cons_succ,
    List.getD_cons_zero, List.drop_succ_cons, List.drop_zero]
  rw [if_neg (by decide)]

/-- A list of length four is four elements. -/
theorem length_four {l : List Nat} (h : l.length = 4) : ∃ c0 c1 c2 c3, l = [c0, c1, c2, c3] := by
  match l, h with
  | [c0, c1, c2, c3], _ => exact ⟨c0, c1, c2, c3, rfl⟩

/-- C5: for every base address and stride, a four-character designator whose
character at index 1 is a letter A..G of either case and whose characters at
indices 2-3 are two decimal digits with value at most 31 is accepted, with port
address base + (letter - A) * stride and offset the two-digit value. -/
theorem str2portoff_valid (phys_mem GPIO_PORT_WIDTH c0 c1 c2 c3 : Nat) (out : PortOff)
    (hletter : is_port_letter c1 = true)
    (hd2 : isdigit c2 = true) (hd3 : isdigit c3 = true)
    (hval : two_digit_value c2 c3 ≤ 31) :
    str2portoff phys_mem GPIO_PORT_WIDTH [c0, c1, c2, c3] out =
      (true, { port := phys_mem + port_index c1 * GPIO_PORT_WIDTH,
               offset := two_digit_value c2 c3 }) := by
  have hoff : (strtol [c2, c3] % 256).toNat = two_digit_value c2 c3 := by
    rw [strtol_two_digits c2 c3 hd2 hd3]; omega
  obtain ⟨hup, hidx⟩ := toupper_port_letter c1 hletter
  rw [str2portoff_four, hoff, hup, if_neg (by omega), if_neg (by omega), Nat.add_sub_cancel]

/-- Witness for C5: "PC23" with base 0x77000000 and stride 0x1000 resolves to port
index 2 and offset 23. -/
theorem str2portoff_valid_witness :
    cstr "PC23" = [80, 67, 50, 51] ∧ port_index 67 = 2 ∧ two_digit_value 50 51 = 23 ∧
    str2portoff 0x77000000 0x1000 [80, 67, 50, 51] ⟨0, 0⟩ =
      (true, { port := 0x77000000 + port_index 67 * 0x1000,
               offset := two_digit_value 50 51 }) :=
  ⟨by decide, by decide, by decide,
    str2portoff_valid 0x77000000 0x1000 80 67 50 51 ⟨0, 0⟩ (by decide) (by decide) (by decide)
      (by decide)⟩

/-- C6 (counterexample): "XA00" and "PAxx" are not of the form `P`, port letter, two
digits 00..31, and `str2portoff` accepts both, as port A offset 0. -/
theorem str2portoff_accepts_other_forms :
    (designator_form (cstr "XA00") = false ∧
      str2portoff 0x77000000 0x100 (cstr "XA00") ⟨7, 9⟩ = (true, ⟨0x77000000, 0⟩)) ∧
    (designator_form (cstr "PAxx") = false ∧
      str2portoff 0x77000000 0x100 (cstr "PAxx") ⟨7, 9⟩ = (true, ⟨0x77000000, 0⟩)) := by
  decide

/-- C6 (amended): `str2portoff` fails exactly for the strings whose length is not 4,
or whose character at index 1 is not a letter A..G of either case, or whose
characters at indices 2-3 are two decimal digits with value above 31 or a minus
sign followed by a digit 1..9. The character at index 0 is not inspected. -/
theorem str2portoff_fails_iff (phys_mem GPIO_PORT_WIDTH : Nat) (str : List Nat)
    (out : PortOff) :
    (str2portoff phys_mem GPIO_PORT_WIDTH str out).1 = false ↔
      (str.length ≠ 4 ∨ ∃ c0 c1 c2 c3, str = [c0, c1, c2, c3] ∧
        (is_port_letter c1 = false ∨
         (isdigit c2 = true ∧ isdigit c3 = true ∧ 31 < two_digit_value c2 c3) ∨
         (c2 = 45 ∧ isdigit c3 = true ∧ c3 ≠ 48))) := by
  by_cases hlen : str.length = 4
  · obtain ⟨c0, c1, c2, c3, rfl⟩ := length_four hlen
    rw [str2portoff_four]
    constructor
    · intro h
      right
      refine ⟨c0, c1, c2, c3, rfl, ?_⟩
      by_cases hl : toupper c1 < 65 ∨ toupper c1 > 71
      · exact Or.inl ((toupper_out_of_range_iff c1).1 hl)
      · rw [if_neg hl] at h
        by_cases hoff : (strtol [c2, c3] % 256).toNat > 31
        · exact Or.inr ((strtol_two_chars_gt c2 c3).1 hoff)
        · rw [if_neg hoff] at h
          exact absurd h (by simp)
    · rintro (h | ⟨d0, d1, d2, d3, heq, h⟩)
      · exact absurd rfl h
      · simp only [List.cons.injEq, and_true] at heq
        obtain ⟨-, rfl, rfl, rfl⟩ := heq
        rcases h with h | h
        · rw [if_pos ((toupper_out_of_range_iff c1).2 h)]
        · by_cases hl : toupper c1 < 65 ∨ toupper c1 > 71
          · rw [if_pos hl]
          · rw [if_neg hl, if_pos ((strtol_two_chars_gt c2 c3).2 h)]
  · constructor
    · intro _
      exact Or.inl hlen
    · intro _
      simp only [str2portoff, ne_eq, hlen, not_false_eq_true, if_true]

/-- C7: a string whose length is not 4, or whose character at index 1 case-folded is
outside A..G, or whose characters at indices 2-3 are two decimal digits with value
above 31, is rejected; and whenever `str2portoff` fails, both out-parameters keep the
values they had before the call. -/
theorem str2portoff_invalid (phys_mem GPIO_PORT_WIDTH : Nat) (str : List Nat)
    (out : PortOff) :
    ((str.length ≠ 4 ∨
      (∃ c1, str.get? 1 = some c1 ∧ (toupper c1 < 65 ∨ 71 < toupper c1)) ∨
      (∃ c2 c3, str.get? 2 = some c2 ∧ str.get? 3 = some c3 ∧
        isdigit c2 = true ∧ isdigit c3 = true ∧ 31 < two_digit_value c2 c3)) →
      str2portoff phys_mem GPIO_PORT_WIDTH str out = (false, out)) ∧
    ((str2portoff phys_mem GPIO_PORT_WIDTH str out).1 = false →
      (str2portoff phys_mem GPIO_PORT_WIDTH str out).2 = out) := by
  constructor
  · intro h
    by_cases hlen : str.length = 4
    · obtain ⟨c0, c1, c2, c3, rfl⟩ := length_four hlen
      rw [str2portoff_four]
      rcases h with h | ⟨d1, hd1, h⟩ | ⟨d2, d3, hd2, hd3, h⟩
      · exact absurd rfl h
      · simp only [List.get?_cons_succ, List.get?_cons_zero, Option.some.injEq] at hd1
        subst hd1
        rw [if_pos h]
      · simp only [List.get?_cons_succ, List.get?_cons_zero, Option.some.injEq] at hd2 hd3
        subst hd2 hd3
        by_cases hl : toupper c1 < 65 ∨ toupper c1 > 71
        · rw [if_pos hl]
        · rw [if_neg hl, if_pos ((strtol_two_chars_gt c2 c3).2 (Or.inl h))]
    · simp only [str2portoff, ne_eq, hlen, not_false_eq_true, if_true]
  · simp only [str2portoff]
    split_ifs <;> simp

/-- Witness for C7: "PH00" (letter out of range), "PA32" (offset above 31) and "PA1"
(three characters) are rejected and leave the out-parameters at 7 and 9. -/
theorem str2portoff_invalid_witness :
    (cstr "PH00" = [80, 72, 48, 48] ∧ cstr "PA32" = [80, 65, 51, 50] ∧
      cstr "PA1" = [80, 65, 49]) ∧
    str2portoff 0x77000000 0x100 [80, 72, 48, 48] ⟨7, 9⟩ = (false, ⟨7, 9⟩) ∧
    str2portoff 0x77000000 0x100 [80, 65, 51, 50] ⟨7, 9⟩ = (false, ⟨7, 9⟩) ∧
    str2portoff 0x77000000 0x100 [80, 65, 49] ⟨7, 9⟩ = (false, ⟨7, 9⟩) ∧
    (str2portoff 0x77000000 0x100 [80, 65, 49] ⟨7, 9⟩).2 = ⟨7, 9⟩ :=
  ⟨by decide,
    (str2portoff_invalid 0x77000000 0x100 [80, 72, 48, 48] ⟨7, 9⟩).1
      (Or.inr (Or.inl ⟨72, rfl, by decide⟩)),
    (str2portoff_invalid 0x77000000 0x100 [80, 65, 51, 50] ⟨7, 9⟩).1
      (Or.inr (Or.inr ⟨51, 50, rfl, rfl, by decide, by decide, by decide⟩)),
    (str2portoff_invalid 0x77000000 0x100 [80, 65, 49] ⟨7, 9⟩).1 (Or.inl (by decide)),
    (str2portoff_invalid 0x77000000 0x100 [80, 65, 49] ⟨7, 9⟩).2 (by decide)⟩

/-! ## Theorems: drive strength -/

/-- Bits of the constant 3: the two low ones. -/
theorem testBit_three (i : Nat) : Nat.testBit 3 i = decide (i < 2) :=
  Nat.testBit_two_pow_sub_one 2 i

/-- A strength code of at most 3 has no bit above bit 1. -/
theorem testBit_le_three {c : Nat} (hc : c ≤ 3) {i : Nat} (hi : 2 ≤ i) :
    c.testBit i = false := by
  apply Nat.testBit_lt_two_pow
  calc c < 2 ^ 2 := by omega
    _ ≤ 2 ^ i := Nat.pow_le_pow_right (by decide) hi

/-- Bits of a 32-bit left shift. -/
theorem testBit_shl32 (x n j : Nat) :
    (shl32 x n).testBit j = (decide (j < 32) && (decide (n ≤ j) && x.testBit (j - n))) := by
  rw [shl32, Nat.testBit_mod_two_pow, Nat.testBit_shiftLeft]

/-- Bits of a 32-bit complement. -/
theorem testBit_not32 (x j : Nat) :
    (not32 x).testBit j = (decide (j < 32) ^^ x.testBit j) := by
  rw [not32, Nat.testBit_xor, Nat.testBit_two_pow_sub_one]

/-- The mask computed from the unadjusted offset is the mask of the pin's field in its
own register: the count `offset * 2` modulo 32 is `(offset mod 16) * 2`. -/
theorem shl32_wrap_mask (x offset : Nat) :
    shl32_wrap x (offset * 2) = shl32 x (offset % 16 * 2) := by
  have h : offset * 2 % 32 = offset % 16 * 2 := by omega
  rw [shl32_wrap, h]

/-- A code of at most 3 shifted to bit `s` has no bit outside `s+1 : s`. -/
theorem testBit_shl32_other {c s j : Nat} (hc : c ≤ 3) (h : j < s ∨ s + 2 ≤ j) :
    (shl32 c s).testBit j = false := by
  rw [testBit_shl32]
  rcases h with h | h
  · have : ¬ s ≤ j := by omega
    simp [this]
  · rw [testBit_le_three hc (by omega)]
    simp

/-- Masking a register with the mask of field `k` and shifting it down gives the
field, which fits the `uint8_t` result. -/
theorem masked_field (r k : Nat) (hk : k < 16) :
    ((r &&& shl32 3 (k * 2)) >>> (k * 2)) % 256 = drive_field r k := by
  simp only [drive_field]
  apply Nat.eq_of_testBit_eq
  intro j
  rw [show (256 : Nat) = 2 ^ 8 from rfl, Nat.testBit_mod_two_pow, Nat.testBit_shiftRight,
    Nat.testBit_and, Nat.testBit_and, Nat.testBit_shiftRight, testBit_shl32, testBit_three]
  have h1 : k * 2 + j - k * 2 = j := by omega
  have h2 : k * 2 ≤ k * 2 + j := by omega
  rw [h1, testBit_three]
  by_cases hj : j < 2
  · have h3 : k * 2 + j < 32 := by omega
    have h4 : j < 8 := by omega
    simp [hj, h2, h3, h4]
  · simp [hj]

/-- For a pin 0..31 `get_drive_strength` returns the pin's field of its drive register. -/
theorem get_drive_strength_eq (mem : Mem) (port offset : Nat) (ho : offset < 32) :
    get_drive_strength mem port offset =
      drive_field (mem (drive_reg_of port offset)) (offset % 16) := by
  have hk : offset % 16 < 16 := Nat.mod_lt _ (by decide)
  by_cases ho16 : offset < 16
  · have hm : offset % 16 = offset := Nat.mod_eq_of_lt ho16
    simp only [get_drive_strength, ho16, if_true, drive_reg_of, shl32_wrap_mask]
    rw [← masked_field _ _ hk, hm]
  · have hm : offset - 16 = offset % 16 := by omega
    simp only [get_drive_strength, ho16, if_false, drive_reg_of, shl32_wrap_mask, hm]
    rw [← masked_field _ _ hk]

/-- Memory after `set_drive_strength` with a code of at most 3: only the pin's drive
register is written, with the pin's field cleared and the shifted code or-ed in. -/
theorem set_drive_strength_mem (mem : Mem) (port offset strength : Nat)
    (ho : offset < 32) (hc : strength ≤ 3) :
    (set_drive_strength mem port offset strength).2 =
      fun a => if a = drive_reg_of port offset then
        (((mem (drive_reg_of port offset) &&& not32 (shl32 3 (offset % 16 * 2))) % 2 ^ 32) |||
          shl32 strength (offset % 16 * 2)) % 2 ^ 32
      else mem a := by
  have h3 : ¬ strength > 3 := by omega
  funext a
  by_cases ho16 : offset < 16
  · have hm : offset % 16 = offset := Nat.mod_eq_of_lt ho16
    simp only [set_drive_strength, h3, if_false, ho16, if_true, drive_reg_of, Mem.write,
      shl32_wrap_mask, hm]
    by_cases ha : a = port + PxDRVL_OFFSET <;> simp [ha]
  · have hm : offset - 16 = offset % 16 := by omega
    simp only [set_drive_strength, h3, if_false, ho16, drive_reg_of, Mem.write,
      shl32_wrap_mask, hm]
    by_cases ha : a = port + PxDRVH_OFFSET <;> simp [ha]

/-- Bits of the written register outside the field `s` that was set. -/
theorem testBit_updated_other (r c s k i : Nat) (hc : c ≤ 3)
    (hk : k < 16) (hne : k ≠ s) (hi : i < 2) :
    ((((r &&& not32 (shl32 3 (s * 2))) % 2 ^ 32) ||| shl32 c (s * 2)) % 2 ^ 32).testBit
      (k * 2 + i) = r.testBit (k * 2 + i) := by
  have hj : k * 2 + i < 32 := by omega
  have hmask : (shl32 3 (s * 2)).testBit (k * 2 + i) = false :=
    testBit_shl32_other (by omega) (by omega)
  have hnew : (shl32 c (s * 2)).testBit (k * 2 + i) = false :=
    testBit_shl32_other hc (by omega)
  rw [Nat.testBit_mod_two_pow, Nat.testBit_or, Nat.testBit_mod_two_pow, Nat.testBit_and,
    testBit_not32, hmask, hnew]
  simp [hj]

/-- The field `s` of the written register holds the code that was set. -/
theorem updated_field (r c s : Nat) (hs : s < 16) (hc : c ≤ 3) :
    drive_field ((((r &&& not32 (shl32 3 (s * 2))) % 2 ^ 32) ||| shl32 c (s * 2)) % 2 ^ 32) s
      = c := by
  simp only [drive_field]
  apply Nat.eq_of_testBit_eq
  intro j
  rw [Nat.testBit_and, Nat.testBit_shiftRight, testBit_three, Nat.testBit_mod_two_pow,
    Nat.testBit_or, Nat.testBit_mod_two_pow, Nat.testBit_and, testBit_not32, testBit_shl32,
    testBit_shl32, testBit_three]
  have h1 : s * 2 + j - s * 2 = j := by omega
  have h2 : s * 2 ≤ s * 2 + j := by omega
  rw [h1]
  by_cases hj : j < 2
  · have h3 : s * 2 + j < 32 := by omega
    simp [hj, h2, h3]
  · rw [testBit_le_three hc (by omega)]
    simp [hj]

/-- C8: for every register content, every pin offset 0..31 and every code 0..3,
`get_drive_strength` after `set_drive_strength` returns the code that was set. -/
theorem set_get_drive_strength (mem : Mem) (port offset strength : Nat)
    (ho : offset ≤ 31) (hc : strength ≤ 3) :
    get_drive_strength (set_drive_strength mem port offset strength).2 port offset
      = strength := by
  have hk : offset % 16 < 16 := Nat.mod_lt _ (by decide)
  rw [get_drive_strength_eq _ _ _ (by omega),
    set_drive_strength_mem mem port offset strength (by omega) hc]
  simp only [if_true]
  exact updated_field _ _ _ hk hc

/-- Witness for C8: pin 16 set to code 1 on zeroed registers reads back 1, and pin 31
set to code 2 on registers of all ones reads back 2. -/
theorem set_get_drive_strength_witness :
    (16 ≤ 31 ∧ 1 ≤ 3 ∧ 31 ≤ 31 ∧ 2 ≤ 3) ∧
    get_drive_strength (set_drive_strength (fun _ => 0) 0x1000 16 1).2 0x1000 16 = 1 ∧
    get_drive_strength (set_drive_strength (fun _ => 0xFFFFFFFF) 0x1000 31 2).2 0x1000 31
      = 2 ∧
    (set_drive_strength (fun _ => 0xFFFFFFFF) 0x1000 31 2).2 0x1140 = 0xBFFFFFFF :=
  ⟨by decide,
    set_get_drive_strength (fun _ => 0) 0x1000 16 1 (by decide) (by decide),
    set_get_drive_strength (fun _ => 0xFFFFFFFF) 0x1000 31 2 (by decide) (by decide),
    by decide⟩

/-- C9: for every register content and every pin offset 0..31, `get_drive_strength`
returns the 2-bit field at bit position (offset mod 16) * 2 of the low drive register
(block offset 0x130) when the offset is below 16 and of the high drive register
(block offset 0x140) otherwise. -/
theorem get_drive_strength_field (mem : Mem) (port offset : Nat) (ho : offset ≤ 31) :
    get_drive_strength mem port offset =
      (mem (port + (if offset < 16 then 0x130 else 0x140)) / 2 ^ (offset % 16 * 2)) % 4 ∧
    get_drive_strength mem port offset =
      drive_field (mem (drive_reg_of port offset)) (offset % 16) := by
  have h := get_drive_strength_eq mem port offset (by omega)
  refine ⟨?_, h⟩
  rw [h]
  simp only [drive_field, drive_reg_of, PxDRVL_OFFSET, PxDRVH_OFFSET,
    Nat.shiftRight_eq_div_pow, show (3 : Nat) = 2 ^ 2 - 1 from rfl,
    Nat.and_pow_two_sub_one_eq_mod]
  split_ifs <;> rfl

/-- Witness for C9: with 0x000000E4 in the low and 0x1B000000 in the high drive
register, pins 0..3 read 0, 1, 2, 3 and pins 28..31 read 3, 2, 1, 0. -/
theorem get_drive_strength_field_witness :
    (List.range 4).map
        (get_drive_strength (fun a => if a = 0x130 then 0xE4 else 0x1B000000) 0) =
      [0, 1, 2, 3] ∧
    [28, 29, 30, 31].map
        (get_drive_strength (fun a => if a = 0x130 then 0xE4 else 0x1B000000) 0) =
      [3, 2, 1, 0] ∧
    get_drive_strength (fun a => if a = 0x130 then 0xE4 else 0x1B000000) 0 29 =
      ((fun a => if a = 0x130 then 0xE4 else 0x1B000000)
        (0 + (if 29 < 16 then 0x130 else 0x140)) / 2 ^ (29 % 16 * 2)) % 4 :=
  ⟨by decide, by decide,
    (get_drive_strength_field (fun a => if a = 0x130 then 0xE4 else 0x1B000000) 0 29
      (by decide)).1⟩

/-- C10: for a pin 0..31 and a code 0..3, `set_drive_strength` keeps the 2-bit field
of every other pin of the drive register it writes, keeps the other drive register
of the port, and writes no other address. -/
theorem set_drive_strength_frame (mem : Mem) (port offset strength : Nat)
    (ho : offset < 32) (hc : strength ≤ 3) :
    (∀ p, p < 32 → p ≠ offset → drive_reg_of port p = drive_reg_of port offset →
      drive_field ((set_drive_strength mem port offset strength).2 (drive_reg_of port p))
          (p % 16)
        = drive_field (mem (drive_reg_of port p)) (p % 16)) ∧
    (set_drive_strength mem port offset strength).2 (other_drive_reg_of port offset)
      = mem (other_drive_reg_of port offset) ∧
    (∀ a, a ≠ drive_reg_of port offset →
      (set_drive_strength mem port offset strength).2 a = mem a) := by
  rw [set_drive_strength_mem mem port offset strength ho hc]
  refine ⟨?_, ?_, ?_⟩
  · intro p hp hne hreg
    have hk : p % 16 < 16 := Nat.mod_lt _ (by decide)
    have hne16 : p % 16 ≠ offset % 16 := by
      simp only [drive_reg_of, PxDRVL_OFFSET, PxDRVH_OFFSET] at hreg
      split_ifs at hreg <;> omega
    simp only [hreg, if_true, drive_field]
    apply Nat.eq_of_testBit_eq
    intro i
    rw [Nat.testBit_and, Nat.testBit_and, Nat.testBit_shiftRight, Nat.testBit_shiftRight,
      testBit_three]
    by_cases hi : i < 2
    · rw [testBit_updated_other _ _ _ _ _ hc hk hne16 hi]
    · simp [hi]
  · have h : other_drive_reg_of port offset ≠ drive_reg_of port offset := by
      simp only [other_drive_reg_of, drive_reg_of, PxDRVL_OFFSET, PxDRVH_OFFSET]
      split_ifs <;> omega
    simp only [h, if_false]
  · intro a ha
    simp only [ha, if_false]

/-- Witness for C10: with every word of memory all ones, setting pin 16 of the port at
0x1000 to code 0 turns the high drive register into 0xFFFFFFFC, keeps the field of
pin 17 and keeps the low drive register; setting pin 5 to code 2 turns the low drive
register into 0xFFFFFBFF and keeps the field of pin 7. -/
theorem set_drive_strength_frame_witness :
    (16 < 32 ∧ 0 ≤ 3 ∧ 17 < 32 ∧ 17 ≠ 16 ∧ drive_reg_of 0x1000 17 = drive_reg_of 0x1000 16 ∧
      7 ≠ 5 ∧ drive_reg_of 0x1000 7 = drive_reg_of 0x1000 5) ∧
    ((set_drive_strength (fun _ => 0xFFFFFFFF) 0x1000 16 0).2 0x1140 = 0xFFFFFFFC ∧
      (set_drive_strength (fun _ => 0xFFFFFFFF) 0x1000 5 2).2 0x1130 = 0xFFFFFBFF) ∧
    drive_field ((set_drive_strength (fun _ => 0xFFFFFFFF) 0x1000 16 0).2
        (drive_reg_of 0x1000 17)) (17 % 16)
      = drive_field ((fun _ => 0xFFFFFFFF) (drive_reg_of 0x1000 17)) (17 % 16) ∧
    (set_drive_strength (fun _ => 0xFFFFFFFF) 0x1000 16 0).2 (other_drive_reg_of 0x1000 16)
      = (fun _ => 0xFFFFFFFF) (other_drive_reg_of 0x1000 16) ∧
    drive_field ((set_drive_strength (fun _ => 0xFFFFFFFF) 0x1000 5 2).2
        (drive_reg_of 0x1000 7)) (7 % 16)
      = drive_field ((fun _ => 0xFFFFFFFF) (drive_reg_of 0x1000 7)) (7 % 16) :=
  ⟨by decide, by decide,
    (set_drive_strength_frame (fun _ => 0xFFFFFFFF) 0x1000 16 0 (by decide) (by decide)).1 17
      (by decide) (by decide) (by decide),
    (set_drive_strength_frame (fun _ => 0xFFFFFFFF) 0x1000 16 0 (by decide)
      (by decide)).2.1,
    (set_drive_strength_frame (fun _ => 0xFFFFFFFF) 0x1000 5 2 (by decide) (by decide)).1 7
      (by decide) (by decide) (by decide)⟩

/-! ## Theorems: SoC identification, port stride, milliamp table -/

/-- C14: for every identifier the type code is bits 19:12 of the identifier when its
top four bits are not 0001, and otherwise the identifier shifted left by 4 within
32 bits and right by 16, which is its bits 27:12, a 16-bit value; identifier
0x00031000 gives 0x31 and identifier 0x12000abc gives 0x2000. -/
theorem set_port_width_soc_type_bits (soc_id : Nat) :
    set_port_width_soc_type soc_id =
      (if soc_id / 2 ^ 28 ≠ 1 then soc_id / 2 ^ 12 % 2 ^ 8
       else ((soc_id * 2 ^ 4) % 2 ^ 32) / 2 ^ 16) ∧
    ((soc_id * 2 ^ 4) % 2 ^ 32) / 2 ^ 16 = soc_id / 2 ^ 12 % 2 ^ 16 ∧
    set_port_width_soc_type soc_id < 2 ^ 16 ∧
    set_port_width_soc_type 0x00031000 = 0x31 ∧
    set_port_width_soc_type 0x12000abc = 0x2000 := by
  have hff : (0xFF : Nat) = 2 ^ 8 - 1 := rfl
  refine ⟨?_, ?_, ?_, by decide, by decide⟩
  · simp only [set_port_width_soc_type, shl32, Nat.shiftRight_eq_div_pow, Nat.shiftLeft_eq,
      hff, Nat.and_pow_two_sub_one_eq_mod]
  · omega
  · simp only [set_port_width_soc_type, shl32, Nat.shiftRight_eq_div_pow, Nat.shiftLeft_eq,
      hff, Nat.and_pow_two_sub_one_eq_mod]
    norm_num
    split_ifs <;> omega

/-- C15: the stride selected for a type code is 0x1000 for the codes 0x21, 0x30 and
0x31 and 0x100 for every other code, among them 5, 0x2000 and 0x99; it is always
one of 0x100 and 0x1000. -/
theorem set_port_width_switch_total (soc_type : Nat) :
    set_port_width_switch soc_type =
      (if soc_type = 0x21 ∨ soc_type = 0x30 ∨ soc_type = 0x31 then 0x1000 else 0x100) ∧
    (set_port_width_switch soc_type = 0x100 ∨ set_port_width_switch soc_type = 0x1000) ∧
    set_port_width_switch 5 = 0x100 ∧ set_port_width_switch 0x2000 = 0x100 ∧
    set_port_width_switch 0x99 = 0x100 ∧ set_port_width_switch 0x21 = 0x1000 ∧
    set_port_width_switch 0x30 = 0x1000 ∧ set_port_width_switch 0x31 = 0x1000 := by
  refine ⟨?_, ?_, by decide, by decide, by decide, by decide, by decide, by decide⟩
  · simp only [set_port_width_switch]
    split_ifs <;> first | rfl | omega
  · simp only [set_port_width_switch]
    split_ifs <;> simp

/-- C16: `drive_strength_to_ma` maps 0, 1, 2, 3 to 2, 4, 8, 12 and every other input
to 0. -/
theorem drive_strength_to_ma_total (strength : Nat) :
    drive_strength_to_ma strength =
      (if strength = 0 then 2 else if strength = 1 then 4 else if strength = 2 then 8
       else if strength = 3 then 12 else 0) := by
  match strength with
  | 0 => rfl
  | 1 => rfl
  | 2 => rfl
  | 3 => rfl
  | n + 4 => simp [drive_strength_to_ma]

/-! ## Theorems: addresses and `show_gpios` -/

/-- A successful `str2portoff` yields the block address of a port index 0..6 and an
offset 0..31. -/
theorem str2portoff_success (phys_mem GPIO_PORT_WIDTH : Nat) (str : List Nat)
    (out po : PortOff) (h : str2portoff phys_mem GPIO_PORT_WIDTH str out = (true, po)) :
    (∃ k, k ≤ 6 ∧ po.port = phys_mem + k * GPIO_PORT_WIDTH) ∧ po.offset ≤ 31 := by
  by_cases hlen : str.length = 4
  · obtain ⟨c0, c1, c2, c3, rfl⟩ := length_four hlen
    rw [str2portoff_four] at h
    by_cases hl : toupper c1 < 65 ∨ toupper c1 > 71
    · rw [if_pos hl] at h
      exact absurd (congrArg Prod.fst h) (by simp)
    · rw [if_neg hl] at h
      by_cases hoff : (strtol [c2, c3] % 256).toNat > 31
      · rw [if_pos hoff] at h
        exact absurd (congrArg Prod.fst h) (by simp)
      · rw [if_neg hoff] at h
        have hpo := congrArg Prod.snd h
        simp only at hpo
        subst hpo
        exact ⟨⟨toupper c1 - 65, by omega, rfl⟩, by simp only; omega⟩
  · simp only [str2portoff, ne_eq, hlen, not_false_eq_true, if_true] at h
    exact absurd (congrArg Prod.fst h) (by simp)

/-- A designator made of any first character, the upper-case letter of port index
`i` and the two decimal digits of `j` resolves to port index `i` and offset `j`. -/
theorem str2portoff_of_digits (phys_mem GPIO_PORT_WIDTH c0 i j : Nat) (out : PortOff)
    (hi : i ≤ 6) (hj : j ≤ 31) :
    str2portoff phys_mem GPIO_PORT_WIDTH [c0, 65 + i, 48 + j / 10, 48 + j % 10] out =
      (true, { port := phys_mem + i * GPIO_PORT_WIDTH, offset := j }) := by
  have hd2 : isdigit (48 + j / 10) = true := by
    simp only [isdigit, decide_eq_true_eq]; omega
  have hd3 : isdigit (48 + j % 10) = true := by
    simp only [isdigit, decide_eq_true_eq]; omega
  have hv : two_digit_value (48 + j / 10) (48 + j % 10) = j := by
    simp only [two_digit_value]; omega
  have hoff : (strtol [48 + j / 10, 48 + j % 10] % 256).toNat = j := by
    rw [strtol_two_digits _ _ hd2 hd3, hv]; omega
  have hup : toupper (65 + i) = 65 + i := by
    simp only [toupper]; split_ifs <;> omega
  rw [str2portoff_four, hoff, hup, if_neg (by omega), if_neg (by omega), Nat.add_sub_cancel_left]

/-- Bytes of the label of pin `j` of port index `i`: `P`, the letter, two digits. -/
theorem cstr_show_gpios_label (i j : Nat) (hi : i < 3) (hj : j < 32) :
    cstr (show_gpios_label i j) = [80, 65 + i, 48 + j / 10, 48 + j % 10] := by
  interval_cases i <;> interval_cases j <;> decide

/-- Outside the register it writes, `set_drive_strength` changes no word of memory. -/
theorem set_drive_strength_other (mem : Mem) (port offset strength a : Nat)
    (ha : a ≠ drive_reg_of port offset) :
    (set_drive_strength mem port offset strength).2 a = mem a := by
  simp only [set_drive_strength, drive_reg_of] at ha ⊢
  split_ifs at ha ⊢ <;> simp [Mem.write, ha]

/-- C18 (evaluation at the failing input): stride 0x100 is selected for type code 5 and
for identifier 0, and with it the low and high drive registers of port index 0 are
the PAT1 and PAT0 registers of port index 1; setting the drive strength of pin 0 of
port 0 to code 3 on zeroed memory leaves 3 in PAT1 of port 1, and after
`PA00 drive 3` the decoder text of pin PB00 is FUNCTION 2 where it was FUNCTION 0. -/
theorem drive_reg_collides_stride_0x100 :
    set_port_width_switch 5 = 0x100 ∧
    0 * 0x100 + PxDRVL_OFFSET = 1 * 0x100 + PAT1_OFF ∧
    0 * 0x100 + PxDRVH_OFFSET = 1 * 0x100 + PAT0_OFF ∧
    PAT1_OFF ≤ 0x4B ∧ PAT0_OFF ≤ 0x4B ∧
    (set_drive_strength (fun _ => 0) (0 * 0x100) 0 3).2 (1 * 0x100 + PAT1_OFF) = 3 ∧
    set_port_width 0 = 0x100 ∧
    show_gpios_state (fun _ => 0) (show_gpios_port_addr 0x77000000 0x100 1) 0
      = "FUNCTION 0 " ∧
    (main 0 true true 0x77000000 [cstr "gpio", cstr "PA00", cstr "drive", cstr "3"]
        (fun _ => 0)).map
      (fun r => (r.1, r.2.out, r.2.mem (0x77000000 + 1 * 0x100 + PAT1_OFF),
        show_gpios_state r.2.mem (show_gpios_port_addr 0x77000000 0x100 1) 0))
      = some (0, "", 3, "FUNCTION 2 ") := by
  decide

/-- With port stride 0x1000, for all port indices p and q the two drive registers of
port p differ from every address q * stride + c with c in 0..0x4B of the block of
port q, and `set_drive_strength` on a pin of port p leaves every word at such an
address unchanged. -/
theorem drive_reg_disjoint_stride_0x1000 (base p q c : Nat) (hc : c ≤ 0x4B) :
    p * 0x1000 + PxDRVL_OFFSET ≠ q * 0x1000 + c ∧
    p * 0x1000 + PxDRVH_OFFSET ≠ q * 0x1000 + c ∧
    ∀ (mem : Mem) (offset strength : Nat),
      (set_drive_strength mem (base + p * 0x1000) offset strength).2 (base + q * 0x1000 + c)
        = mem (base + q * 0x1000 + c) := by
  simp only [PxDRVL_OFFSET, PxDRVH_OFFSET]
  refine ⟨by omega, by omega, ?_⟩
  intro mem offset strength
  apply set_drive_strength_other
  simp only [drive_reg_of, PxDRVL_OFFSET, PxDRVH_OFFSET]
  split_ifs <;> omega

/-- C19: for stride 0x100 and 0x1000, for the port address and offset of every
successful `str2portoff` and for the port address of every port index 0..2 of
`show_gpios`, each 4-byte register at a block offset r with r + 4 at most 0x4C, or
at 0x130 or 0x140, lies inside the window of `MAP_LENGTH` bytes at `phys_mem`, and
the offset is at most 31. -/
theorem accessed_registers_in_window (phys_mem GPIO_PORT_WIDTH : Nat)
    (hW : GPIO_PORT_WIDTH = 0x100 ∨ GPIO_PORT_WIDTH = 0x1000) :
    (∀ (str : List Nat) (out po : PortOff),
      str2portoff phys_mem GPIO_PORT_WIDTH str out = (true, po) →
      po.offset ≤ 31 ∧
      ∀ r, (r + 4 ≤ 0x4C ∨ r = PxDRVL_OFFSET ∨ r = PxDRVH_OFFSET) →
        phys_mem ≤ po.port + r ∧ po.port + r + 4 ≤ phys_mem + MAP_LENGTH) ∧
    (∀ i, i < 3 →
      ∀ r, (r + 4 ≤ 0x4C ∨ r = PxDRVL_OFFSET ∨ r = PxDRVH_OFFSET) →
        phys_mem ≤ show_gpios_port_addr phys_mem GPIO_PORT_WIDTH i + r ∧
        show_gpios_port_addr phys_mem GPIO_PORT_WIDTH i + r + 4 ≤ phys_mem + MAP_LENGTH) := by
  constructor
  · intro str out po h
    obtain ⟨⟨k, hk, hport⟩, hoff⟩ := str2portoff_success phys_mem GPIO_PORT_WIDTH str out po h
    refine ⟨hoff, ?_⟩
    intro r hr
    simp only [PxDRVL_OFFSET, PxDRVH_OFFSET, MAP_LENGTH] at hr ⊢
    rw [hport]
    rcases hW with hW | hW <;> subst hW <;> omega
  · intro i hi r hr
    simp only [PxDRVL_OFFSET, PxDRVH_OFFSET, MAP_LENGTH, show_gpios_port_addr] at hr ⊢
    rcases hW with hW | hW <;> subst hW <;> omega

/-- Witness for C19: "PG31" with stride 0x1000 resolves to the block at offset 0x6000
of the window, whose high drive register ends at 0x6144, inside the 0x10000 bytes. -/
theorem accessed_registers_in_window_witness :
    str2portoff 0x77000000 0x1000 (cstr "PG31") ⟨0, 0⟩ = (true, ⟨0x77006000, 31⟩) ∧
    (31 ≤ 31 ∧
      ∀ r, (r + 4 ≤ 0x4C ∨ r = PxDRVL_OFFSET ∨ r = PxDRVH_OFFSET) →
        0x77000000 ≤ 0x77006000 + r ∧ 0x77006000 + r + 4 ≤ 0x77000000 + MAP_LENGTH) :=
  ⟨by decide,
    (accessed_registers_in_window 0x77000000 0x1000 (Or.inr rfl)).1 (cstr "PG31") ⟨0, 0⟩
      ⟨0x77006000, 31⟩ (by decide)⟩

/-- C20: for every stride, port index i in 0..2 and pin j in 0..31, the label that
`show_gpios` prints has four characters, is accepted by `str2portoff` and resolves
to the port address and offset that the pin line is decoded from; `show_gpios`
prints 105 pieces, of which piece 35 * i + 2 + j is the line of pin j of port i,
decoded from that port address, so the 96 pin lines come in ascending port, then
ascending pin order. -/
theorem show_gpios_label_resolves (phys_mem GPIO_PORT_WIDTH : Nat) (mem : Mem)
    (out : PortOff) (i j : Nat) (hi : i < 3) (hj : j < 32) :
    (show_gpios_label i j).length = 4 ∧
    str2portoff phys_mem GPIO_PORT_WIDTH (cstr (show_gpios_label i j)) out =
      (true, { port := show_gpios_port_addr phys_mem GPIO_PORT_WIDTH i, offset := j }) ∧
    (show_gpios phys_mem GPIO_PORT_WIDTH mem).length = 3 * 32 + 3 * 3 ∧
    (show_gpios phys_mem GPIO_PORT_WIDTH mem).get? (35 * i + 2 + j) =
      some (show_gpios_line mem (show_gpios_port_addr phys_mem GPIO_PORT_WIDTH i) i j) ∧
    (∃ rest, show_gpios_line mem (show_gpios_port_addr phys_mem GPIO_PORT_WIDTH i) i j =
      show_gpios_label i j ++ ": " ++ rest) := by
  refine ⟨?_, ?_, rfl, ?_, ?_⟩
  · interval_cases i <;> interval_cases j <;> decide
  · rw [cstr_show_gpios_label i j hi hj, str2portoff_of_digits _ _ _ _ _ _ (by omega) (by omega)]
    rfl
  · interval_cases i <;> interval_cases j <;> rfl
  · refine ⟨?rest, ?eq⟩
    case eq =>
      simp only [show_gpios_line, String.append_assoc]
      exact rfl

/-- Witness for C20: the label of pin 23 of port index 2 is "PC23", which resolves to
the block at 0x77002000 with stride 0x1000; the line is piece 95 of the output. -/
theorem show_gpios_label_resolves_witness :
    (2 < 3 ∧ 23 < 32 ∧ show_gpios_label 2 23 = "PC23") ∧
    str2portoff 0x77000000 0x1000 (cstr (show_gpios_label 2 23)) ⟨0, 0⟩ =
      (true, { port := show_gpios_port_addr 0x77000000 0x1000 2, offset := 23 }) ∧
    (show_gpios 0x77000000 0x1000 (fun _ => 0)).get? (35 * 2 + 2 + 23) =
      some (show_gpios_line (fun _ => 0) (show_gpios_port_addr 0x77000000 0x1000 2) 2 23) :=
  ⟨by decide,
    (show_gpios_label_resolves 0x77000000 0x1000 (fun _ => 0) ⟨0, 0⟩ 2 23 (by decide)
      (by decide)).2.1,
    (show_gpios_label_resolves 0x77000000 0x1000 (fun _ => 0) ⟨0, 0⟩ 2 23 (by decide)
      (by decide)).2.2.2.1⟩

/-! ## Theorems: commands of `main` -/

/-- The macro `BIT_GET` reads bit `n`. -/
theorem BIT_GET_eq (x n : Nat) : BIT_GET x n = b2n (x.testBit n) := by
  simp only [BIT_GET, Nat.and_one_is_mod, Nat.testBit_to_div_mod, Nat.shiftRight_eq_div_pow, b2n]
  rcases Nat.mod_two_eq_zero_or_one (x / 2 ^ n) with h | h <;> simp [h]

/-- Bits of the word `1 << n`. -/
theorem testBit_shl32_one (n j : Nat) :
    (shl32 1 n).testBit j = (decide (j < 32) && decide (j = n)) := by
  rw [testBit_shl32, show (1 : Nat) = 2 ^ 1 - 1 from rfl, Nat.testBit_two_pow_sub_one]
  by_cases h1 : j < 32 <;> by_cases h2 : n ≤ j <;> by_cases h3 : j = n <;>
    simp [h1, h2, h3]
  all_goals omega

/-- A store to a set alias that reads back as zero ors the bit of the pin into the
value register, and the store is the single bit. -/
theorem BIT_SET_set_alias (w : World) (port off n : Nat)
    (hoff : off = INTS_OFF ∨ off = MSKS_OFF ∨ off = PAT1S_OFF ∨ off = PAT0S_OFF)
    (hz : w.mem (port + off) = 0) :
    BIT_SET w port off n =
      { w with mem := w.mem.write (port + (off - 4)) (w.mem (port + (off - 4)) ||| shl32 1 n),
               stores := w.stores ++ [(port + off, shl32 1 n)] } := by
  have e : port + off - 4 = port + (off - 4) := by
    simp only [INTS_OFF, MSKS_OFF, PAT1S_OFF, PAT0S_OFF] at hoff
    omega
  simp only [BIT_SET, hw_store, hoff, if_true, hz, Nat.zero_or, e]

/-- A store to a clear alias that reads back as zero clears the bit of the pin in the
value register, and the store is the single bit. -/
theorem BIT_SET_clear_alias (w : World) (port off n : Nat)
    (hoff : off = INTC_OFF ∨ off = MSKC_OFF ∨ off = PAT1C_OFF ∨ off = PAT0C_OFF)
    (hz : w.mem (port + off) = 0) :
    BIT_SET w port off n =
      { w with mem := w.mem.write (port + (off - 8))
                 (w.mem (port + (off - 8)) &&& not32 (shl32 1 n)),
               stores := w.stores ++ [(port + off, shl32 1 n)] } := by
  have e : port + off - 8 = port + (off - 8) := by
    simp only [INTC_OFF, MSKC_OFF, PAT1C_OFF, PAT0C_OFF] at hoff
    omega
  have hno : ¬ (off = INTS_OFF ∨ off = MSKS_OFF ∨ off = PAT1S_OFF ∨ off = PAT0S_OFF) := by
    simp only [INTS_OFF, MSKS_OFF, PAT1S_OFF, PAT0S_OFF, INTC_OFF, MSKC_OFF, PAT1C_OFF,
      PAT0C_OFF] at hoff ⊢
    omega
  simp only [BIT_SET, hw_store, hno, hoff, if_true, if_false, hz, Nat.zero_or, e]

/-- Bit `k` of a register after the bit of pin `n` has been or-ed in. -/
theorem BIT_GET_write_set (r n k : Nat) (hk : k ≤ 31) :
    BIT_GET ((r ||| shl32 1 n) % 2 ^ 32) k = if k = n then 1 else BIT_GET r k := by
  rw [BIT_GET_eq, BIT_GET_eq, Nat.testBit_mod_two_pow, Nat.testBit_or, testBit_shl32_one]
  have h32 : k < 32 := by omega
  by_cases h : k = n
  · subst h
    simp [h32, b2n]
  · simp [h32, h]

/-- Bit `k` of a register after the bit of pin `n` has been cleared. -/
theorem BIT_GET_write_clear (r n k : Nat) (hk : k ≤ 31) :
    BIT_GET ((r &&& not32 (shl32 1 n)) % 2 ^ 32) k = if k = n then 0 else BIT_GET r k := by
  rw [BIT_GET_eq, BIT_GET_eq, Nat.testBit_mod_two_pow, Nat.testBit_and, testBit_not32,
    testBit_shl32_one]
  have h32 : k < 32 := by omega
  by_cases h : k = n
  · simp [h32, h, b2n]
  · simp [h32, h]


/-- Reading a word after a store. -/
theorem Mem.write_apply (mem : Mem) (a v b : Nat) :
    (mem.write a v) b = if b = a then v % 2 ^ 32 else mem b := rfl

/-- One `BIT_SET` on an alias register, when the alias registers of the port read
back as zero: they still do afterwards, the store is the single bit of pin `n`,
nothing is printed, and in the value registers only bit `n` of the register the
alias acts on changes, to 1 for a set alias and to 0 for a clear alias. -/
theorem BIT_SET_step (w : World) (port n S V : Nat) (b : Bool)
    (hS : (S, V, b) ∈ alias_table) (hz : aliases_read_zero w.mem port) :
    aliases_read_zero (BIT_SET w port S n).mem port ∧
    (BIT_SET w port S n).stores = w.stores ++ [(port + S, shl32 1 n)] ∧
    (BIT_SET w port S n).out = w.out ∧
    (BIT_SET w port S n).mem (port + INL_OFF) = w.mem (port + INL_OFF) ∧
    ∀ R, R ∈ value_offsets → ∀ k, k ≤ 31 →
      BIT_GET ((BIT_SET w port S n).mem (port + R)) k =
        if R = V ∧ k = n then b2n b else BIT_GET (w.mem (port + R)) k := by
  have hzS : w.mem (port + S) = 0 := by
    apply hz
    simp only [alias_table, List.mem_cons, Prod.mk.injEq, List.mem_singleton,
      List.not_mem_nil, or_false] at hS
    simp only [alias_offsets, List.mem_cons, List.mem_singleton, List.not_mem_nil, or_false]
    rcases hS with h | h | h | h | h | h | h | h <;> simp [h.1]
  simp only [alias_table, List.mem_cons, Prod.mk.injEq, List.mem_singleton,
    List.not_mem_nil, or_false] at hS
  rcases hS with e | e | e | e | e | e | e | e
  all_goals
    obtain ⟨rfl, rfl, rfl⟩ := e
    first
    | rw [BIT_SET_set_alias w port _ n (by simp) hzS]
    | rw [BIT_SET_clear_alias w port _ n (by simp) hzS]
    refine ⟨?_, rfl, rfl, ?_, ?_⟩
    · intro off hoff
      have hzo := hz off hoff
      simp only [alias_offsets, List.mem_cons, List.mem_singleton, List.not_mem_nil,
        or_false] at hoff
      simp only [Mem.write_apply]
      rw [if_neg, hzo]
      simp only [INTS_OFF, INTC_OFF, MSKS_OFF, MSKC_OFF, PAT1S_OFF, PAT1C_OFF, PAT0S_OFF,
        PAT0C_OFF] at hoff ⊢
      omega
    · simp only [Mem.write_apply]
      rw [if_neg]
      simp only [INL_OFF, INTS_OFF, INTC_OFF, MSKS_OFF, MSKC_OFF, PAT1S_OFF, PAT1C_OFF,
        PAT0S_OFF, PAT0C_OFF]
      omega
    · intro R hR k hk
      simp only [value_offsets, List.mem_cons, List.mem_singleton, List.not_mem_nil,
        or_false] at hR
      simp only [Mem.write_apply]
      rcases hR with rfl | rfl | rfl | rfl <;>
        simp only [INT_OFF, MSK_OFF, PAT1_OFF, PAT0_OFF, INTS_OFF, INTC_OFF, MSKS_OFF, MSKC_OFF,
          PAT1S_OFF, PAT1C_OFF, PAT0S_OFF, PAT0C_OFF, Nat.reduceSub, Nat.reduceEqDiff,
          add_right_inj, if_true, if_false, true_and, false_and, BIT_GET_write_set _ _ _ hk,
          BIT_GET_write_clear _ _ _ hk, b2n, Bool.false_eq_true]

/-- The state after `gpio_input`. -/
theorem main_command_gpio_input (port offset : Nat) (val : Option (List Nat)) (w : World) :
    main_command port offset (cstr "gpio_input") val w =
      some (0, BIT_SET (BIT_SET (BIT_SET w port INTC_OFF offset) port MSKS_OFF offset)
        port PAT1S_OFF offset) := by
  rfl

/-- The state after `gpio_output`. -/
theorem main_command_gpio_output (port offset : Nat) (val : Option (List Nat)) (w : World) :
    main_command port offset (cstr "gpio_output") val w =
      some (0, BIT_SET (BIT_SET (BIT_SET w port INTC_OFF offset) port MSKS_OFF offset)
        port PAT1C_OFF offset) := by
  rfl

/-- The state after `func` with a value. -/
theorem main_command_func (port offset : Nat) (a3 : List Nat) (w : World) :
    main_command port offset (cstr "func") (some a3) w =
      some (0,
        BIT_SET
          (BIT_SET (BIT_SET (BIT_SET w port INTC_OFF offset) port MSKC_OFF offset) port
            (if BIT_GET (strtol a3 % 256).toNat 1 ≠ 0 then PAT1S_OFF else PAT1C_OFF) offset)
          port (if BIT_GET (strtol a3 % 256).toNat 0 ≠ 0 then PAT0S_OFF else PAT0C_OFF)
          offset) := by
  have h : main_command port offset (cstr "func") (some a3) w =
      some (0,
        if BIT_GET (strtol a3 % 256).toNat 0 ≠ 0 then
          BIT_SET (if BIT_GET (strtol a3 % 256).toNat 1 ≠ 0 then
              BIT_SET (BIT_SET (BIT_SET w port INTC_OFF offset) port MSKC_OFF offset)
                port PAT1S_OFF offset
            else BIT_SET (BIT_SET (BIT_SET w port INTC_OFF offset) port MSKC_OFF offset)
                port PAT1C_OFF offset) port PAT0S_OFF offset
        else
          BIT_SET (if BIT_GET (strtol a3 % 256).toNat 1 ≠ 0 then
              BIT_SET (BIT_SET (BIT_SET w port INTC_OFF offset) port MSKC_OFF offset)
                port PAT1S_OFF offset
            else BIT_SET (BIT_SET (BIT_SET w port INTC_OFF offset) port MSKC_OFF offset)
                port PAT1C_OFF offset) port PAT0C_OFF offset) := by
    rfl
  rw [h]
  split_ifs <;> rfl

/-- The alias chosen by a bit of the value of `func` is in the table, with the bit as
the value it gives the pin. -/
theorem alias_table_choice (c : Prop) [Decidable c] :
    ((if c then PAT1S_OFF else PAT1C_OFF), PAT1_OFF, decide c) ∈ alias_table ∧
    ((if c then PAT0S_OFF else PAT0C_OFF), PAT0_OFF, decide c) ∈ alias_table ∧
    ((if c then INTS_OFF else INTC_OFF), INT_OFF, decide c) ∈ alias_table := by
  by_cases h : c <;> simp [h, alias_table]

/-- A bit read by `BIT_GET` is 0 or 1. -/
theorem b2n_BIT_GET_ne_zero (x k : Nat) : b2n (decide (BIT_GET x k ≠ 0)) = BIT_GET x k := by
  rw [BIT_GET_eq]
  cases x.testBit k <;> simp [b2n]

/-- The decoder text for a pin whose bits are int=0, msk=1, pat1=1. -/
theorem show_gpios_state_input (mem : Mem) (port j : Nat)
    (h1 : BIT_GET (mem (port + INT_OFF)) j = 0) (h2 : BIT_GET (mem (port + MSK_OFF)) j = 1)
    (h3 : BIT_GET (mem (port + PAT1_OFF)) j = 1) :
    ∃ v, show_gpios_state mem port j = "GPIO INPUT " ++ fmt_u v ++ " " := by
  refine ⟨b2n (if decide (BIT_GET (mem (port + PAT0_OFF)) j ≠ 0) then
      decide (BIT_GET (mem (port + INL_OFF)) j ≠ 0)
    else decide (BIT_GET (mem (port + PAT0_OFF)) j ≠ 0)), ?_⟩
  simp [show_gpios_state, show_gpios_pin, h1, h2, h3]

/-- The decoder text for a pin whose bits are int=0, msk=1, pat1=0. -/
theorem show_gpios_state_output (mem : Mem) (port j : Nat)
    (h1 : BIT_GET (mem (port + INT_OFF)) j = 0) (h2 : BIT_GET (mem (port + MSK_OFF)) j = 1)
    (h3 : BIT_GET (mem (port + PAT1_OFF)) j = 0) :
    ∃ v, show_gpios_state mem port j = "GPIO OUTPUT " ++ fmt_u v ++ " " := by
  refine ⟨b2n (if decide (BIT_GET (mem (port + PAT0_OFF)) j ≠ 0) then
      decide (BIT_GET (mem (port + INL_OFF)) j ≠ 0)
    else decide (BIT_GET (mem (port + PAT0_OFF)) j ≠ 0)), ?_⟩
  simp [show_gpios_state, show_gpios_pin, h1, h2, h3]

/-- The decoder text for a pin whose bits are int=0, msk=0 and (pat1, pat0) the two
bits of `n`. -/
theorem show_gpios_state_function (mem : Mem) (port j n : Nat) (hn : n ≤ 3)
    (h1 : BIT_GET (mem (port + INT_OFF)) j = 0) (h2 : BIT_GET (mem (port + MSK_OFF)) j = 0)
    (h3 : BIT_GET (mem (port + PAT1_OFF)) j = BIT_GET n 1)
    (h4 : BIT_GET (mem (port + PAT0_OFF)) j = BIT_GET n 0) :
    show_gpios_state mem port j = "FUNCTION " ++ fmt_u n ++ " " := by
  simp only [show_gpios_state, h1, h2, h3, h4]
  generalize decide (BIT_GET (mem (port + INL_OFF)) j ≠ 0) = b_inl
  interval_cases n <;> cases b_inl <;> decide

/-- C12: when the alias registers of the port read back as zero, for every other
register content and every pin 0..31: `gpio_input` leaves the bits (INT, MSK, PAT1)
of the pin at (0, 1, 1) and the decoder prints GPIO INPUT; `gpio_output` leaves them
at (0, 1, 0) and the decoder prints GPIO OUTPUT; `func` with a value read as n in
0..3 leaves (INT, MSK, PAT1, PAT0) at (0, 0, bit 1 of n, bit 0 of n) and the decoder
prints FUNCTION n. Each command returns with status 0. -/
theorem gpio_commands_set_mode (port offset : Nat) (val : Option (List Nat)) (w : World)
    (ho : offset ≤ 31) (hz : aliases_read_zero w.mem port) :
    (∃ w1, main_command port offset (cstr "gpio_input") val w = some (0, w1) ∧
      BIT_GET (w1.mem (port + INT_OFF)) offset = 0 ∧
      BIT_GET (w1.mem (port + MSK_OFF)) offset = 1 ∧
      BIT_GET (w1.mem (port + PAT1_OFF)) offset = 1 ∧
      ∃ v, show_gpios_state w1.mem port offset = "GPIO INPUT " ++ fmt_u v ++ " ") ∧
    (∃ w1, main_command port offset (cstr "gpio_output") val w = some (0, w1) ∧
      BIT_GET (w1.mem (port + INT_OFF)) offset = 0 ∧
      BIT_GET (w1.mem (port + MSK_OFF)) offset = 1 ∧
      BIT_GET (w1.mem (port + PAT1_OFF)) offset = 0 ∧
      ∃ v, show_gpios_state w1.mem port offset = "GPIO OUTPUT " ++ fmt_u v ++ " ") ∧
    (∀ (n : Nat) (a3 : List Nat), n ≤ 3 → strtol a3 = (n : Int) →
      ∃ w1, main_command port offset (cstr "func") (some a3) w = some (0, w1) ∧
        BIT_GET (w1.mem (port + INT_OFF)) offset = 0 ∧
        BIT_GET (w1.mem (port + MSK_OFF)) offset = 0 ∧
        BIT_GET (w1.mem (port + PAT1_OFF)) offset = BIT_GET n 1 ∧
        BIT_GET (w1.mem (port + PAT0_OFF)) offset = BIT_GET n 0 ∧
        show_gpios_state w1.mem port offset = "FUNCTION " ++ fmt_u n ++ " ") := by
  have hINT : INT_OFF ∈ value_offsets := by simp [value_offsets]
  have hMSK : MSK_OFF ∈ value_offsets := by simp [value_offsets]
  have hPAT1 : PAT1_OFF ∈ value_offsets := by simp [value_offsets]
  have hPAT0 : PAT0_OFF ∈ value_offsets := by simp [value_offsets]
  obtain ⟨z1, -, -, -, b1⟩ :=
    BIT_SET_step w port offset INTC_OFF INT_OFF false (by simp [alias_table]) hz
  refine ⟨?_, ?_, ?_⟩
  · obtain ⟨z2, -, -, -, b2⟩ :=
      BIT_SET_step _ port offset MSKS_OFF MSK_OFF true (by simp [alias_table]) z1
    obtain ⟨-, -, -, -, b3⟩ :=
      BIT_SET_step _ port offset PAT1S_OFF PAT1_OFF true (by simp [alias_table]) z2
    have e1 := (b3 INT_OFF hINT offset ho).trans
      ((if_neg (by simp [INT_OFF, PAT1_OFF])).trans ((b2 INT_OFF hINT offset ho).trans
        ((if_neg (by simp [INT_OFF, MSK_OFF])).trans (b1 INT_OFF hINT offset ho))))
    have e2 := (b3 MSK_OFF hMSK offset ho).trans
      ((if_neg (by simp [MSK_OFF, PAT1_OFF])).trans (b2 MSK_OFF hMSK offset ho))
    have e3 := b3 PAT1_OFF hPAT1 offset ho
    simp only [and_self, if_true, b2n] at e1 e2 e3
    exact ⟨_, main_command_gpio_input port offset val w, e1, e2, e3,
      show_gpios_state_input _ port offset e1 e2 e3⟩
  · obtain ⟨z2, -, -, -, b2⟩ :=
      BIT_SET_step _ port offset MSKS_OFF MSK_OFF true (by simp [alias_table]) z1
    obtain ⟨-, -, -, -, b3⟩ :=
      BIT_SET_step _ port offset PAT1C_OFF PAT1_OFF false (by simp [alias_table]) z2
    have e1 := (b3 INT_OFF hINT offset ho).trans
      ((if_neg (by simp [INT_OFF, PAT1_OFF])).trans ((b2 INT_OFF hINT offset ho).trans
        ((if_neg (by simp [INT_OFF, MSK_OFF])).trans (b1 INT_OFF hINT offset ho))))
    have e2 := (b3 MSK_OFF hMSK offset ho).trans
      ((if_neg (by simp [MSK_OFF, PAT1_OFF])).trans (b2 MSK_OFF hMSK offset ho))
    have e3 := b3 PAT1_OFF hPAT1 offset ho
    simp only [and_self, if_true, b2n] at e1 e2 e3
    exact ⟨_, main_command_gpio_output port offset val w, e1, e2, e3,
      show_gpios_state_output _ port offset e1 e2 e3⟩
  · intro n a3 hn hs
    have hv : (strtol a3 % 256).toNat = n := by rw [hs]; omega
    obtain ⟨z2, -, -, -, b2⟩ :=
      BIT_SET_step _ port offset MSKC_OFF MSK_OFF false (by simp [alias_table]) z1
    obtain ⟨z3, -, -, -, b3⟩ :=
      BIT_SET_step _ port offset _ PAT1_OFF _ (alias_table_choice (BIT_GET n 1 ≠ 0)).1 z2
    obtain ⟨-, -, -, -, b4⟩ :=
      BIT_SET_step _ port offset _ PAT0_OFF _ (alias_table_choice (BIT_GET n 0 ≠ 0)).2.1 z3
    have e1 := (b4 INT_OFF hINT offset ho).trans
      ((if_neg (by simp [INT_OFF, PAT0_OFF])).trans ((b3 INT_OFF hINT offset ho).trans
        ((if_neg (by simp [INT_OFF, PAT1_OFF])).trans ((b2 INT_OFF hINT offset ho).trans
          ((if_neg (by simp [INT_OFF, MSK_OFF])).trans (b1 INT_OFF hINT offset ho))))))
    have e2 := (b4 MSK_OFF hMSK offset ho).trans
      ((if_neg (by simp [MSK_OFF, PAT0_OFF])).trans ((b3 MSK_OFF hMSK offset ho).trans
        ((if_neg (by simp [MSK_OFF, PAT1_OFF])).trans (b2 MSK_OFF hMSK offset ho))))
    have e3 := (b4 PAT1_OFF hPAT1 offset ho).trans
      ((if_neg (by simp [PAT1_OFF, PAT0_OFF])).trans (b3 PAT1_OFF hPAT1 offset ho))
    have e4 := b4 PAT0_OFF hPAT0 offset ho
    simp only [and_self, if_true, b2n_BIT_GET_ne_zero] at e1 e2 e3 e4
    simp only [b2n, Bool.false_eq_true, if_false] at e1 e2
    refine ⟨_, ?_, e1, e2, e3, e4, show_gpios_state_function _ port offset n hn e1 e2 e3 e4⟩
    rw [main_command_func, hv]

/-- Witness for C12: pin 5 of the port at 0x77000000 with all bits of INT set and every
other register zero; `gpio_input`, `gpio_output` and `func 2` leave the stated bits. -/
theorem gpio_commands_set_mode_witness :
    (5 ≤ 31 ∧ (2 : Nat) ≤ 3 ∧ strtol (cstr "2") = ((2 : Nat) : Int)) ∧
    (∃ w1, main_command 0x77000000 5 (cstr "gpio_input") none
        ⟨fun a => if a = 0x77000010 then 0xFFFFFFFF else 0, [], ""⟩ = some (0, w1) ∧
      BIT_GET (w1.mem (0x77000000 + INT_OFF)) 5 = 0 ∧
      BIT_GET (w1.mem (0x77000000 + MSK_OFF)) 5 = 1 ∧
      BIT_GET (w1.mem (0x77000000 + PAT1_OFF)) 5 = 1 ∧
      ∃ v, show_gpios_state w1.mem 0x77000000 5 = "GPIO INPUT " ++ fmt_u v ++ " ") ∧
    (∃ w1, main_command 0x77000000 5 (cstr "func") (some (cstr "2"))
        ⟨fun a => if a = 0x77000010 then 0xFFFFFFFF else 0, [], ""⟩ = some (0, w1) ∧
      BIT_GET (w1.mem (0x77000000 + INT_OFF)) 5 = 0 ∧
      BIT_GET (w1.mem (0x77000000 + MSK_OFF)) 5 = 0 ∧
      BIT_GET (w1.mem (0x77000000 + PAT1_OFF)) 5 = BIT_GET 2 1 ∧
      BIT_GET (w1.mem (0x77000000 + PAT0_OFF)) 5 = BIT_GET 2 0 ∧
      show_gpios_state w1.mem 0x77000000 5 = "FUNCTION " ++ fmt_u 2 ++ " ") :=
  ⟨by decide,
    (gpio_commands_set_mode 0x77000000 5 none
      ⟨fun a => if a = 0x77000010 then 0xFFFFFFFF else 0, [], ""⟩ (by decide)
      (by
        intro off h
        simp only [alias_offsets, List.mem_cons, List.mem_singleton, List.not_mem_nil,
          or_false] at h
        rcases h with rfl | rfl | rfl | rfl | rfl | rfl | rfl | rfl <;> decide)).1,
    (gpio_commands_set_mode 0x77000000 5 none
      ⟨fun a => if a = 0x77000010 then 0xFFFFFFFF else 0, [], ""⟩ (by decide)
      (by
        intro off h
        simp only [alias_offsets, List.mem_cons, List.mem_singleton, List.not_mem_nil,
          or_false] at h
        rcases h with rfl | rfl | rfl | rfl | rfl | rfl | rfl | rfl <;> decide)).2.2
      2 (cstr "2") (by decide) (by decide)⟩

/-- Nothing stored and nothing changed is within the frame of any pin. -/
theorem pin_only_refl (port n : Nat) (w w1 : World) (hs : w1.stores = w.stores)
    (hm : w1.mem = w.mem) : pin_only port n w w1 := by
  refine ⟨⟨[], by simp [hs], by simp⟩, ?_⟩
  intro R _ k _ _
  rw [hm]

/-- A further `BIT_SET` on an alias register keeps the run within the frame of pin `n`
and keeps the alias registers reading back as zero. -/
theorem pin_only_step (port n : Nat) (w w1 : World) (S V : Nat) (b : Bool)
    (hS : (S, V, b) ∈ alias_table) (hz1 : aliases_read_zero w1.mem port)
    (h : pin_only port n w w1) :
    pin_only port n w (BIT_SET w1 port S n) ∧
    aliases_read_zero (BIT_SET w1 port S n).mem port := by
  obtain ⟨z, hst, -, -, hb⟩ := BIT_SET_step w1 port n S V b hS hz1
  obtain ⟨⟨new, hnew, hall⟩, hbits⟩ := h
  have hSo : S ∈ alias_offsets := by
    simp only [alias_table, List.mem_cons, Prod.mk.injEq, List.mem_singleton,
      List.not_mem_nil, or_false] at hS
    simp only [alias_offsets, List.mem_cons, List.mem_singleton, List.not_mem_nil, or_false]
    rcases hS with h | h | h | h | h | h | h | h <;> simp [h.1]
  refine ⟨⟨⟨new ++ [(port + S, shl32 1 n)], ?_, ?_⟩, ?_⟩, z⟩
  · rw [hst, hnew, List.append_assoc]
  · intro s hs
    rcases List.mem_append.1 hs with hs | hs
    · exact hall s hs
    · rw [List.mem_singleton.1 hs]
      exact ⟨rfl, S, hSo, rfl⟩
  · intro R hR k hk hkn
    rw [hb R hR k hk, if_neg (fun hc => hkn hc.2)]
    exact hbits R hR k hk hkn

/-- C13 (counterexample): with the set alias INTS of the port at 0x77000000 reading
back as 2 and INT holding 0, `int 1` on pin 0 stores the word 3 to INTS, which is
not the single bit 1 of pin 0, and the INT bit of pin 1 changes from 0 to 1. -/
theorem int_command_stores_other_pins :
    (main_command 0x77000000 0 (cstr "int") (some (cstr "1"))
        ⟨fun a => if a = 0x77000014 then 2 else 0, [], ""⟩).map
      (fun r => (r.1, r.2.stores, BIT_GET (r.2.mem (0x77000000 + INT_OFF)) 1))
      = some (0, [(0x77000000 + INTS_OFF, 3)], 1) ∧
    shl32 1 0 = 1 ∧
    BIT_GET ((fun a => if a = 0x77000014 then 2 else 0) (0x77000000 + INT_OFF)) 1 = 0 := by
  decide

/-- The commands `int`, `pat0`, `write` and `pat1` with a value: one `BIT_SET` on the
set alias when the value, reduced to 8 bits, is not zero, and on the clear alias
otherwise. -/
theorem main_command_value (port offset : Nat) (a3 : List Nat) (w : World) :
    main_command port offset (cstr "int") (some a3) w =
      some (0, BIT_SET w port
        (if (strtol a3 % 256).toNat ≠ 0 then INTS_OFF else INTC_OFF) offset) ∧
    main_command port offset (cstr "pat0") (some a3) w =
      some (0, BIT_SET w port
        (if (strtol a3 % 256).toNat ≠ 0 then PAT0S_OFF else PAT0C_OFF) offset) ∧
    main_command port offset (cstr "write") (some a3) w =
      some (0, BIT_SET w port
        (if (strtol a3 % 256).toNat ≠ 0 then PAT0S_OFF else PAT0C_OFF) offset) ∧
    main_command port offset (cstr "pat1") (some a3) w =
      some (0, BIT_SET w port
        (if (strtol a3 % 256).toNat ≠ 0 then PAT1S_OFF else PAT1C_OFF) offset) := by
  have h1 : main_command port offset (cstr "int") (some a3) w =
      if (strtol a3 % 256).toNat ≠ 0 then some (0, BIT_SET w port INTS_OFF offset)
      else some (0, BIT_SET w port INTC_OFF offset) := rfl
  have h2 : main_command port offset (cstr "pat0") (some a3) w =
      if (strtol a3 % 256).toNat ≠ 0 then some (0, BIT_SET w port PAT0S_OFF offset)
      else some (0, BIT_SET w port PAT0C_OFF offset) := rfl
  have h3 : main_command port offset (cstr "write") (some a3) w =
      if (strtol a3 % 256).toNat ≠ 0 then some (0, BIT_SET w port PAT0S_OFF offset)
      else some (0, BIT_SET w port PAT0C_OFF offset) := rfl
  have h4 : main_command port offset (cstr "pat1") (some a3) w =
      if (strtol a3 % 256).toNat ≠ 0 then some (0, BIT_SET w port PAT1S_OFF offset)
      else some (0, BIT_SET w port PAT1C_OFF offset) := rfl
  rw [h1, h2, h3, h4]
  refine ⟨?_, ?_, ?_, ?_⟩ <;> split_ifs <;> rfl

/-- A command that needs a value and gets none prints the error and exits with status
2 without a store; so does `drive`, with its own message. -/
theorem main_command_no_value (port offset : Nat) (cmd : List Nat) (w : World)
    (hcmd : cmd ∈ [cstr "int", cstr "pat0", cstr "write", cstr "pat1", cstr "func",
      cstr "drive"]) :
    ∃ msg, main_command port offset cmd none w = some (2, w.print msg) := by
  simp only [List.mem_cons, List.mem_singleton, List.not_mem_nil, or_false] at hcmd
  rcases hcmd with rfl | rfl | rfl | rfl | rfl | rfl
  · exact ⟨_, rfl⟩
  · exact ⟨_, rfl⟩
  · exact ⟨_, rfl⟩
  · exact ⟨_, rfl⟩
  · exact ⟨_, rfl⟩
  · exact ⟨_, rfl⟩

/-- C13 (amended): when the alias registers of the port read back as zero, for every
pin offset, every other register content and every value argument, each of the
commands int, pat0, write, pat1, gpio_input, gpio_output and func returns, stores
only to set and clear alias registers of the port, each stored word being the
single bit of the pin, and leaves the bits of every other pin 0..31 in INT, MSK,
PAT1 and PAT0 unchanged. -/
theorem commands_touch_only_pin (port offset : Nat) (cmd : List Nat)
    (val : Option (List Nat)) (w : World)
    (hz : aliases_read_zero w.mem port)
    (hcmd : cmd ∈ [cstr "int", cstr "pat0", cstr "write", cstr "pat1", cstr "gpio_input",
      cstr "gpio_output", cstr "func"]) :
    ∃ st w1, main_command port offset cmd val w = some (st, w1) ∧
      pin_only port offset w w1 := by
  have h0 : pin_only port offset w w := pin_only_refl port offset w w rfl rfl
  have hc := fun c [Decidable c] => alias_table_choice c
  have one : ∀ S V b, (S, V, b) ∈ alias_table →
      pin_only port offset w (BIT_SET w port S offset) :=
    fun S V b hS => (pin_only_step port offset w w S V b hS hz h0).1
  simp only [List.mem_cons, List.mem_singleton, List.not_mem_nil, or_false] at hcmd
  rcases hcmd with rfl | rfl | rfl | rfl | rfl | rfl | rfl
  · cases val with
    | none => exact ⟨2, _, rfl, pin_only_refl port offset w _ rfl rfl⟩
    | some a3 => exact ⟨0, _, (main_command_value port offset a3 w).1, one _ _ _ (hc _).2.2⟩
  · cases val with
    | none => exact ⟨2, _, rfl, pin_only_refl port offset w _ rfl rfl⟩
    | some a3 =>
      exact ⟨0, _, (main_command_value port offset a3 w).2.1, one _ _ _ (hc _).2.1⟩
  · cases val with
    | none => exact ⟨2, _, rfl, pin_only_refl port offset w _ rfl rfl⟩
    | some a3 =>
      exact ⟨0, _, (main_command_value port offset a3 w).2.2.1, one _ _ _ (hc _).2.1⟩
  · cases val with
    | none => exact ⟨2, _, rfl, pin_only_refl port offset w _ rfl rfl⟩
    | some a3 =>
      exact ⟨0, _, (main_command_value port offset a3 w).2.2.2, one _ _ _ (hc _).1⟩
  · obtain ⟨p1, z1⟩ := pin_only_step port offset w w INTC_OFF INT_OFF false
      (by simp [alias_table]) hz h0
    obtain ⟨p2, z2⟩ := pin_only_step port offset w _ MSKS_OFF MSK_OFF true
      (by simp [alias_table]) z1 p1
    obtain ⟨p3, -⟩ := pin_only_step port offset w _ PAT1S_OFF PAT1_OFF true
      (by simp [alias_table]) z2 p2
    exact ⟨0, _, main_command_gpio_input port offset val w, p3⟩
  · obtain ⟨p1, z1⟩ := pin_only_step port offset w w INTC_OFF INT_OFF false
      (by simp [alias_table]) hz h0
    obtain ⟨p2, z2⟩ := pin_only_step port offset w _ MSKS_OFF MSK_OFF true
      (by simp [alias_table]) z1 p1
    obtain ⟨p3, -⟩ := pin_only_step port offset w _ PAT1C_OFF PAT1_OFF false
      (by simp [alias_table]) z2 p2
    exact ⟨0, _, main_command_gpio_output port offset val w, p3⟩
  · cases val with
    | none => exact ⟨2, _, rfl, pin_only_refl port offset w _ rfl rfl⟩
    | some a3 =>
      obtain ⟨p1, z1⟩ := pin_only_step port offset w w INTC_OFF INT_OFF false
        (by simp [alias_table]) hz h0
      obtain ⟨p2, z2⟩ := pin_only_step port offset w _ MSKC_OFF MSK_OFF false
        (by simp [alias_table]) z1 p1
      obtain ⟨p3, z3⟩ := pin_only_step port offset w _ _ PAT1_OFF _
        (hc (BIT_GET (strtol a3 % 256).toNat 1 ≠ 0)).1 z2 p2
      obtain ⟨p4, -⟩ := pin_only_step port offset w _ _ PAT0_OFF _
        (hc (BIT_GET (strtol a3 % 256).toNat 0 ≠ 0)).2.1 z3 p3
      exact ⟨0, _, main_command_func port offset a3 w, p4⟩

/-- Witness for C13 (amended): `gpio_output` on pin 5 of the port at 0x77000000, with
all bits of PAT1 set and every other register zero. -/
theorem commands_touch_only_pin_witness :
    cstr "gpio_output" ∈ [cstr "int", cstr "pat0", cstr "write", cstr "pat1",
      cstr "gpio_input", cstr "gpio_output", cstr "func"] ∧
    ∃ st w1, main_command 0x77000000 5 (cstr "gpio_output") none
        ⟨fun a => if a = 0x77000030 then 0xFFFFFFFF else 0, [], ""⟩ = some (st, w1) ∧
      pin_only 0x77000000 5 ⟨fun a => if a = 0x77000030 then 0xFFFFFFFF else 0, [], ""⟩ w1 :=
  ⟨by decide,
    commands_touch_only_pin 0x77000000 5 (cstr "gpio_output") none
      ⟨fun a => if a = 0x77000030 then 0xFFFFFFFF else 0, [], ""⟩
      (by
        intro off h
        simp only [alias_offsets, List.mem_cons, List.mem_singleton, List.not_mem_nil,
          or_false] at h
        rcases h with rfl | rfl | rfl | rfl | rfl | rfl | rfl | rfl <;> decide)
      (by decide)⟩

/-- C11 (evaluation at the failing input): `PA00 drive 256`, with the drive field of
pin 0 holding 3: the value 256 is stored in a `uint8_t` as 0, no error is printed,
the program exits with status 0 and the low drive register of port A is changed
from 3 to 0. With `drive 4` the error is printed and the register keeps 3. -/
theorem drive_256_accepted :
    (main 0 true true 0x77000000 [cstr "gpio", cstr "PA00", cstr "drive", cstr "256"]
        (fun a => if a = 0x77000130 then 3 else 0)).map
      (fun r => (r.1, r.2.out, r.2.mem 0x77000130)) = some (0, "", 0) ∧
    (main 0 true true 0x77000000 [cstr "gpio", cstr "PA00", cstr "drive", cstr "4"]
        (fun a => if a = 0x77000130 then 3 else 0)).map
      (fun r => (r.1, r.2.out, r.2.mem 0x77000130))
      = some (0, "Invalid drive strength. Must be 0-3.\n", 3) := by
  decide

/-- A conditional between two results with status 0 has status 0. -/
theorem ite_some_zero {c : Prop} [Decidable c] {A B w1 : World} {st : Nat}
    (h : (if c then some ((0 : Nat), A) else some (0, B)) = some (st, w1)) : st = 0 := by
  split_ifs at h <;> simp only [Option.some.injEq, Prod.mk.injEq] at h <;> exact h.1.symm

/-- A command returns a status other than 0 only when it needs a value and `argv[3]`
is NULL; the status is then 2. -/
theorem main_command_status (port offset : Nat) (cmd : List Nat) (val : Option (List Nat))
    (w : World) (st : Nat) (w1 : World)
    (h : main_command port offset cmd val w = some (st, w1)) (hst : st ≠ 0) :
    st = 2 ∧ val = none ∧
      cmd ∈ [cstr "int", cstr "pat0", cstr "write", cstr "pat1", cstr "func",
        cstr "drive"] := by
  have st_of : ∀ {x : World}, some ((0 : Nat), x) = some (st, w1) → False := by
    intro x hx
    simp only [Option.some.injEq, Prod.mk.injEq] at hx
    exact hst hx.1.symm
  have two_of : ∀ {x : World}, some ((2 : Nat), x) = some (st, w1) → st = 2 := by
    intro x hx
    simp only [Option.some.injEq, Prod.mk.injEq] at hx
    exact hx.1.symm
  unfold main_command at h
  by_cases c1 : cmd = cstr "inl" ∨ cmd = cstr "read"
  · rw [if_pos c1] at h
    exact (st_of h).elim
  rw [if_neg c1] at h
  by_cases c2 : cmd = cstr "int"
  · rw [if_pos c2] at h
    cases val with
    | none => exact ⟨two_of h, rfl, by simp [c2]⟩
    | some a3 => exact absurd (ite_some_zero h) hst
  rw [if_neg c2] at h
  by_cases c3 : cmd = cstr "pat0" ∨ cmd = cstr "write"
  · rw [if_pos c3] at h
    cases val with
    | none => exact ⟨two_of h, rfl, by rcases c3 with c | c <;> simp [c]⟩
    | some a3 => exact absurd (ite_some_zero h) hst
  rw [if_neg c3] at h
  by_cases c4 : cmd = cstr "flip"
  · rw [if_pos c4] at h
    exact absurd h (by simp)
  rw [if_neg c4] at h
  by_cases c5 : cmd = cstr "pat1"
  · rw [if_pos c5] at h
    cases val with
    | none => exact ⟨two_of h, rfl, by simp [c5]⟩
    | some a3 => exact absurd (ite_some_zero h) hst
  rw [if_neg c5] at h
  by_cases c6 : cmd = cstr "gpio_input"
  · rw [if_pos c6] at h
    exact (st_of h).elim
  rw [if_neg c6] at h
  by_cases c7 : cmd = cstr "gpio_output"
  · rw [if_pos c7] at h
    exact (st_of h).elim
  rw [if_neg c7] at h
  by_cases c8 : cmd = cstr "func"
  · rw [if_pos c8] at h
    cases val with
    | none => exact ⟨two_of h, rfl, by simp [c8]⟩
    | some a3 => exact (st_of h).elim
  rw [if_neg c8] at h
  by_cases c9 : cmd = cstr "drive"
  · rw [if_pos c9] at h
    cases val with
    | none => exact ⟨two_of h, rfl, by simp [c9]⟩
    | some a3 => exact (st_of h).elim
  rw [if_neg c9] at h
  exact (st_of h).elim

/-- The body of `main` when there is at least one argument and the memory device is
opened and mapped. -/
theorem main_two (soc_id phys_mem : Nat) (a0 a1 : List Nat) (rest : List (List Nat))
    (mem : Mem) :
    main soc_id true true phys_mem (a0 :: a1 :: rest) mem =
      if a1 = cstr "show" then
        some (0, World.print ⟨mem, [], ""⟩
          (String.join (show_gpios phys_mem (set_port_width soc_id) mem)))
      else
        match str2portoff phys_mem (set_port_width soc_id) a1 ⟨0, 0⟩ with
        | (true, po) =>
          match rest.get? 0 with
          | none => some (2, World.print ⟨mem, [], ""⟩ "error: no command specified\n")
          | some cmd => main_command po.port po.offset cmd (rest.get? 1) ⟨mem, [], ""⟩
        | (false, _) =>
          some (2, World.print ⟨mem, [], ""⟩
            ("error: Bad pin specification `" ++ fmt_s a1 ++ "'\n")) := by
  simp [main]

/-- An unrecognised command prints an error and returns status 0. -/
theorem main_command_unknown (port offset : Nat) (cmd : List Nat) (val : Option (List Nat))
    (w : World) (h : cmd ∉ known_commands) :
    main_command port offset cmd val w =
      some (0, w.print ("error: Bad command `" ++ fmt_s cmd ++ "'\n")) := by
  simp only [known_commands, List.mem_cons, List.mem_singleton, List.not_mem_nil, or_false,
    not_or] at h
  obtain ⟨h1, h2, h3, h4, h5, h6, h7, h8, h9, h10, h11⟩ := h
  unfold main_command
  rw [if_neg (by rintro (c | c) <;> contradiction), if_neg h3,
    if_neg (by rintro (c | c) <;> contradiction), if_neg h6, if_neg h7, if_neg h8, if_neg h9,
    if_neg h10, if_neg h11]

/-- C17: with the memory device opened and mapped, `main` returns status 1 when there
is no argument; status 2, without any store and with the registers unchanged, when
the first argument is not `show` and is rejected by `str2portoff`, or is accepted
with no command, or is accepted with one of int, pat0, write, pat1, func, drive and
no value; every other invocation that returns, returns 0, among them an accepted
pin followed by an unrecognised command. -/
theorem main_exit_status (soc_id phys_mem : Nat) (argv : List (List Nat)) (mem : Mem) :
    (argv.length < 2 → ∃ w, main soc_id true true phys_mem argv mem = some (1, w)) ∧
    (exits_with_2 phys_mem (set_port_width soc_id) argv →
      ∃ w, main soc_id true true phys_mem argv mem = some (2, w) ∧
        w.stores = [] ∧ w.mem = mem) ∧
    (∀ st w, main soc_id true true phys_mem argv mem = some (st, w) →
      st = 0 ∨ (st = 1 ∧ argv.length < 2) ∨
        (st = 2 ∧ exits_with_2 phys_mem (set_port_width soc_id) argv)) ∧
    (∀ a1 cmd, argv.get? 1 = some a1 → a1 ≠ cstr "show" →
      (str2portoff phys_mem (set_port_width soc_id) a1 ⟨0, 0⟩).1 = true →
      argv.get? 2 = some cmd → cmd ∉ known_commands →
      ∃ w, main soc_id true true phys_mem argv mem = some (0, w)) := by
  match argv with
  | [] =>
    have hm : main soc_id true true phys_mem [] mem =
        some (1, World.print ⟨mem, [], ""⟩ (show_help_text ++ "\n")) := rfl
    refine ⟨fun _ => ⟨_, hm⟩, ?_, ?_, ?_⟩
    · rintro ⟨a1, h, -⟩
      simp at h
    · intro st w h
      rw [hm] at h
      simp only [Option.some.injEq, Prod.mk.injEq] at h
      exact Or.inr (Or.inl ⟨h.1.symm, by simp⟩)
    · intro a1 cmd h
      simp at h
  | [a0] =>
    have hm : main soc_id true true phys_mem [a0] mem =
        some (1, World.print ⟨mem, [], ""⟩ (show_help_text ++ "\n")) := rfl
    refine ⟨fun _ => ⟨_, hm⟩, ?_, ?_, ?_⟩
    · rintro ⟨a1, h, -⟩
      simp at h
    · intro st w h
      rw [hm] at h
      simp only [Option.some.injEq, Prod.mk.injEq] at h
      exact Or.inr (Or.inl ⟨h.1.symm, by simp⟩)
    · intro a1 cmd h
      simp at h
  | a0 :: a1 :: rest =>
    rw [main_two]
    have g1 : (a0 :: a1 :: rest).get? 1 = some a1 := rfl
    have g2 : (a0 :: a1 :: rest).get? 2 = rest.get? 0 := rfl
    have g3 : (a0 :: a1 :: rest).get? 3 = rest.get? 1 := rfl
    refine ⟨?_, ?_, ?_, ?_⟩
    · intro h
      simp only [List.length_cons] at h
      omega
    · rintro ⟨b1, hb1, hshow, hcase⟩
      rw [g1] at hb1
      obtain rfl := Option.some.inj hb1
      rw [g2, g3] at hcase
      rw [if_neg hshow]
      rcases hp : str2portoff phys_mem (set_port_width soc_id) a1 ⟨0, 0⟩ with ⟨ok, po⟩
      rw [hp] at hcase
      cases ok with
      | false => exact ⟨_, rfl, rfl, rfl⟩
      | true =>
        rcases hcase with hc | hc | ⟨cmd, hc2, hc3, hc4⟩
        · exact absurd hc (by simp)
        · simp only [hc]
          exact ⟨_, rfl, rfl, rfl⟩
        · simp only [hc2, hc3]
          obtain ⟨msg, hmsg⟩ := main_command_no_value po.port po.offset cmd ⟨mem, [], ""⟩ hc4
          exact ⟨_, hmsg, rfl, rfl⟩
    · intro st w h
      by_cases hshow : a1 = cstr "show"
      · rw [if_pos hshow] at h
        simp only [Option.some.injEq, Prod.mk.injEq] at h
        exact Or.inl h.1.symm
      · rw [if_neg hshow] at h
        rcases hp : str2portoff phys_mem (set_port_width soc_id) a1 ⟨0, 0⟩ with ⟨ok, po⟩
        rw [hp] at h
        cases ok with
        | false =>
          simp only [Option.some.injEq, Prod.mk.injEq] at h
          exact Or.inr (Or.inr ⟨h.1.symm, a1, g1, hshow, Or.inl (by rw [hp])⟩)
        | true =>
          cases hr : rest.get? 0 with
          | none =>
            rw [hr] at h
            simp only [Option.some.injEq, Prod.mk.injEq] at h
            exact Or.inr (Or.inr ⟨h.1.symm, a1, g1, hshow, Or.inr (Or.inl (by rw [g2, hr]))⟩)
          | some cmd =>
            rw [hr] at h
            by_cases hst : st = 0
            · exact Or.inl hst
            · obtain ⟨h2, hv, hc⟩ := main_command_status _ _ _ _ _ _ _ h hst
              exact Or.inr (Or.inr ⟨h2, a1, g1, hshow,
                Or.inr (Or.inr ⟨cmd, by rw [g2, hr], by rw [g3, hv], hc⟩)⟩)
    · intro b1 cmd hb1 hshow hok hcmd hunk
      rw [g1] at hb1
      obtain rfl := Option.some.inj hb1
      rw [g2] at hcmd
      rw [if_neg hshow]
      rcases hp : str2portoff phys_mem (set_port_width soc_id) a1 ⟨0, 0⟩ with ⟨ok, po⟩
      rw [hp] at hok
      simp only at hok
      subst hok
      simp only [hcmd]
      exact ⟨_, main_command_unknown _ _ _ _ _ hunk⟩

/-- Witness for C17: with no argument the status is 1; `PA00 int` without a value exits
with status 2 without a store; `PZ99` is rejected with status 2; `PA00 bogus` returns
status 0. -/
theorem main_exit_status_witness :
    ([cstr "gpio"].length < 2 ∧
      exits_with_2 0x77000000 (set_port_width 0) [cstr "gpio", cstr "PA00", cstr "int"] ∧
      exits_with_2 0x77000000 (set_port_width 0) [cstr "gpio", cstr "PZ99"]) ∧
    (∃ w, main 0 true true 0x77000000 [cstr "gpio"] (fun _ => 0) = some (1, w)) ∧
    (∃ w, main 0 true true 0x77000000 [cstr "gpio", cstr "PA00", cstr "int"] (fun _ => 0)
        = some (2, w) ∧ w.stores = [] ∧ w.mem = fun _ => 0) ∧
    (∃ w, main 0 true true 0x77000000 [cstr "gpio", cstr "PZ99"] (fun _ => 0)
        = some (2, w) ∧ w.stores = [] ∧ w.mem = fun _ => 0) ∧
    (∃ w, main 0 true true 0x77000000 [cstr "gpio", cstr "PA00", cstr "bogus"] (fun _ => 0)
        = some (0, w)) :=
  ⟨⟨by decide,
      ⟨cstr "PA00", rfl, by decide, Or.inr (Or.inr ⟨cstr "int", rfl, rfl, by decide⟩)⟩,
      ⟨cstr "PZ99", rfl, by decide, Or.inl (by decide)⟩⟩,
    (main_exit_status 0 0x77000000 [cstr "gpio"] (fun _ => 0)).1 (by decide),
    (main_exit_status 0 0x77000000 [cstr "gpio", cstr "PA00", cstr "int"] (fun _ => 0)).2.1
      ⟨cstr "PA00", rfl, by decide, Or.inr (Or.inr ⟨cstr "int", rfl, rfl, by decide⟩)⟩,
    (main_exit_status 0 0x77000000 [cstr "gpio", cstr "PZ99"] (fun _ => 0)).2.1
      ⟨cstr "PZ99", rfl, by decide, Or.inl (by decide)⟩,
    (main_exit_status 0 0x77000000 [cstr "gpio", cstr "PA00", cstr "bogus"]
      (fun _ => 0)).2.2.2 (cstr "PA00") (cstr "bogus") rfl (by decide) (by decide) rfl
      (by decide)⟩

end JzGpio
